import Mathlib

/-!
# Camel K: trait composition core

A shallow embedding of the classpath trait (`pkg/trait/classpath.go`) and of the
service trait (`pkg/trait/service.go`), together with the parts of the
environment they read and write; of the Knative service definitions
(`pkg/apis/camel/v1alpha1/knative/types_support.go`); of the Quarkus build
steps (`pkg/builder/quarkus`); of the platform create action
(`pkg/controller/integrationplatform/create.go`); and of the Configuration
Resolver and the build pipeline as the specification describes them.

Conventions of the embedding.

* Go pointers that the sources test against `nil` (`e.IntegrationKit`,
  `e.Classpath`, `e.Resources`, `t.Enabled`, `t.Auto`) are `Option`s.  The
  traits dereference `e.Integration` unconditionally, so the environments
  covered here are the ones built for an Integration: the field is not optional.
* Mutation through a pointer becomes explicit state passing: `Configure` and
  `Apply` return the environment they leave behind next to their Go results.
  An entry of a Resource Collection is the value of the object it points to:
  an object that is added twice makes two equal entries.
* External collaborators (cluster client, source resolution, metadata
  extraction, Maven, the file system, `url.Parse`) are function parameters.
* A call that does not return (a runtime panic) is the result `none`.
-/

namespace CamelK

/-! ## Strings: ordering and sorting (`sort.Strings`, `strings.Join`) -/

/-- Lexicographic "less than" on character sequences, comparing code points.
Go compares the UTF-8 bytes of two strings; UTF-8 preserves code point order,
so both orders agree. -/
def ltChars : List Char → List Char → Bool
  | [], [] => false
  | [], _ :: _ => true
  | _ :: _, [] => false
  | a :: as, b :: bs =>
    if a.toNat < b.toNat then true
    else if b.toNat < a.toNat then false
    else ltChars as bs

/-- Go's `a < b` on strings. -/
def strLt (a b : String) : Bool := ltChars a.toList b.toList

/-- Go's `a <= b` on strings. -/
def strLe (a b : String) : Bool := !(strLt b a)

/-- The call `sort.Strings(items)`: the ascending rearrangement of `items`. -/
def sortStrings (items : List String) : List String :=
  List.insertionSort (fun a b => strLe a b = true) items

/-- The call `strings.Join(items, sep)`. -/
def stringsJoin (items : List String) (sep : String) : String :=
  sep.intercalate items

/-! ## `strset.Set` (github.com/scylladb/go-set) -/

/-- A set of strings: the elements in some order, none of them twice. -/
structure StrSet where
  items : List String
  nodup : items.Nodup

instance : DecidableEq StrSet := fun a b =>
  match a, b with
  | ⟨xs, _⟩, ⟨ys, _⟩ =>
    if h : xs = ys then isTrue (by subst h; rfl)
    else isFalse (fun hab => h (congrArg StrSet.items hab))

/-- The call `strset.New()`. -/
def StrSet.New : StrSet := ⟨[], List.nodup_nil⟩

/-- The call `s.Add(x)`. -/
def StrSet.Add (s : StrSet) (x : String) : StrSet :=
  if h : x ∈ s.items then s
  else ⟨s.items ++ [x], by
    rw [List.nodup_append]
    refine ⟨s.nodup, List.nodup_singleton x, ?_⟩
    intro a ha hx
    rw [List.mem_singleton] at hx
    exact h (hx ▸ ha)⟩

/-- The call `s.Copy()`: a set with the same elements that shares no state
with `s`.  Values are immutable here, so the copy is the value itself. -/
def StrSet.Copy (s : StrSet) : StrSet := s

/-- The call `s.List()`: the elements, in an unspecified order. -/
def StrSet.List (s : StrSet) : List String := s.items

/-! ## Kubernetes and Camel K objects -/

/-- The type `corev1.EnvVar`: a named environment value. -/
structure EnvVar where
  Name : String
  Value : String
  deriving DecidableEq, Repr

/-- The type `corev1.VolumeMount`. -/
structure VolumeMount where
  Name : String
  MountPath : String
  deriving DecidableEq, Repr

/-- The type `corev1.Container`. -/
structure Container where
  Name : String
  Env : List EnvVar
  VolumeMounts : List VolumeMount
  deriving DecidableEq, Repr

/-- The type `appsv1.Deployment`; `Containers` is `Spec.Template.Spec.Containers`. -/
structure Deployment where
  Name : String
  Containers : List Container
  deriving DecidableEq, Repr

/-- The type `serving.Service` (Knative); `Containers` is
`Spec.ConfigurationSpec.Template.Spec.Containers`. -/
structure KnativeService where
  Name : String
  Containers : List Container
  deriving DecidableEq, Repr

/-- The type `corev1.ServicePort`. -/
structure ServicePort where
  Name : String
  Port : Int
  deriving DecidableEq, Repr

/-- The type `corev1.Service`, with `TypeMeta`, `ObjectMeta` and `Spec`
flattened.  A Go `map[string]string` is an association list. -/
structure Service where
  Kind : String
  APIVersion : String
  Name : String
  Namespace : String
  Labels : List (String × String)
  Ports : List ServicePort
  Selector : List (String × String)
  deriving DecidableEq, Repr

/-- A `runtime.Object` stored in a Resource Collection. -/
inductive Resource where
  | deployment (d : Deployment)
  | knativeService (s : KnativeService)
  | service (s : Service)
  | other (kind : String) (name : String)
  deriving DecidableEq, Repr

/-- The lookup `m[key]` on a Go `map[string]string`: the value stored under
`key`, the empty string when there is none. -/
def mapIndex (m : List (String × String)) (key : String) : String :=
  match m.find? (fun kv => kv.1 == key) with
  | some kv => kv.2
  | none => ""

/-- The type `v1alpha1.Artifact`. -/
structure Artifact where
  ID : String
  Location : String
  Target : String
  deriving DecidableEq, Repr

/-- The type `v1alpha1.IntegrationKit`; `Phase` and `Artifacts` are the fields
of `Status`. -/
structure IntegrationKit where
  Namespace : String
  Name : String
  Labels : List (String × String)
  Phase : String
  Artifacts : List Artifact
  deriving DecidableEq, Repr

/-- The type `v1.IntegrationCondition`, without its timestamps. -/
structure IntegrationCondition where
  CondType : String
  Status : String
  Reason : String
  Message : String
  deriving DecidableEq, Repr

/-- The type `v1.SourceSpec`. -/
structure SourceSpec where
  Name : String
  Content : String
  Language : String
  deriving DecidableEq, Repr

/-- The type `v1.Integration`; `Phase`, `Kit` and `Conditions` are the fields of
`Status`, `Sources` the field of `Spec`. -/
structure Integration where
  Name : String
  Namespace : String
  Sources : List SourceSpec
  Phase : String
  Kit : String
  Conditions : List IntegrationCondition
  deriving DecidableEq, Repr

/-- The Camel catalog held by the environment.  The traits embedded here only
hand it to the metadata extractor. -/
structure RuntimeCatalog where
  Version : String
  deriving DecidableEq, Repr

/-- The result of `metadata.ExtractAll`, restricted to the field the service
trait reads. -/
structure IntegrationMetadata where
  RequiresHTTPService : Bool
  deriving DecidableEq, Repr

/-- The Resource Collection (`kubernetes.Collection`): the stored objects in
insertion order. -/
abbrev Collection := List Resource

/-- The trait `Environment`, restricted to the fields the two traits use. -/
structure Environment where
  CamelCatalog : RuntimeCatalog
  Integration : Integration
  IntegrationKit : Option IntegrationKit
  Classpath : Option StrSet
  Resources : Option Collection
  deriving DecidableEq

/-! ### Constants declared in the API packages -/

/-- Modelled from the spec: the constant `v1alpha1.IntegrationKitPhaseReady`
is declared outside the sources; it names the "ready" phase of a kit. -/
def IntegrationKitPhaseReady : String := "Ready"

/-- Modelled from the spec: the constant `IntegrationPhaseDeploying` is
declared outside the sources; it names the "deploying" phase. -/
def IntegrationPhaseDeploying : String := "Deploying"

/-- Modelled from the spec: the constant `v1.IntegrationPhaseRunning` is
declared outside the sources; it names the "running" phase. -/
def IntegrationPhaseRunning : String := "Running"

/-- Modelled from the spec: the constant `v1alpha1.IntegrationKitTypeExternal`
is declared outside the sources; it marks an externally built kit. -/
def IntegrationKitTypeExternal : String := "external"

/-- Modelled from the spec: the constant
`v1.IntegrationConditionServiceAvailable` is declared outside the sources. -/
def IntegrationConditionServiceAvailable : String := "ServiceAvailable"

/-- Modelled from the spec: the constant
`v1.IntegrationConditionServiceNotAvailableReason` is declared outside the
sources; it is the "not available" reason. -/
def IntegrationConditionServiceNotAvailableReason : String := "ServiceNotAvailable"

/-- The constant `corev1.ConditionFalse` (k8s.io/api). -/
def ConditionFalse : String := "False"

/-! ### Helpers declared outside the sources -/

/-- Modelled from the spec: `Environment.IntegrationKitInPhase` is declared
outside the sources; the environment's kit is present and in the given phase. -/
def Environment.IntegrationKitInPhase (e : Environment) (phase : String) : Bool :=
  match e.IntegrationKit with
  | none => false
  | some kit => kit.Phase == phase

/-- Modelled from the spec: `Environment.IntegrationInPhase` is declared
outside the sources; the Integration is in one of the given phases. -/
def Environment.IntegrationInPhase (e : Environment) (phases : List String) : Bool :=
  phases.any (fun phase => e.Integration.Phase == phase)

/-- Modelled from the spec: `Environment.InPhase` is declared outside the
sources; "the IntegrationKit is in [the kit] phase and the Integration is in
[the integration] phase". -/
def Environment.InPhase (e : Environment) (c : String) (i : String) : Bool :=
  e.IntegrationKitInPhase c && e.IntegrationInPhase [i]

/-- Modelled from the spec: `envvar.Get` is declared outside the sources; the
first variable of the list that carries the name. -/
def envvarGet (vars : List EnvVar) (name : String) : Option EnvVar :=
  vars.find? (fun v => v.Name == name)

/-- Modelled from the spec: `envvar.SetVal` is declared outside the sources; it
writes "a single environment value": the variable of that name takes the
value, and is appended when the list has none. -/
def envvarSetVal (vars : List EnvVar) (name : String) (value : String) : List EnvVar :=
  match vars with
  | [] => [{ Name := name, Value := value }]
  | v :: rest =>
    if v.Name == name then { v with Value := value } :: rest
    else v :: envvarSetVal rest name value

/-- The state-passing reading of a Go loop that edits the elements of a slice
in place while updating captured state: `f` takes the state and an element to
the new state and the edited element. -/
def mapAccum {σ α : Type} (f : σ → α → σ × α) : σ → List α → σ × List α
  | s, [] => (s, [])
  | s, x :: xs =>
    let r := f s x
    let rest := mapAccum f r.1 xs
    (rest.1, r.2 :: rest.2)

/-- Modelled from the spec: `Collection.VisitDeployment` is declared outside
the sources; it "invokes callback once per stored object of that kind in
insertion order, passing a mutable reference". -/
def Collection.VisitDeployment {σ : Type} (c : Collection) (s : σ)
    (visitor : σ → Deployment → σ × Deployment) : σ × Collection :=
  mapAccum (fun st r =>
    match r with
    | Resource.deployment d => let o := visitor st d; (o.1, Resource.deployment o.2)
    | other => (st, other)) s c

/-- Modelled from the spec: `Collection.VisitKnativeService` is declared
outside the sources; the visit of §4.4 for service-shaped objects. -/
def Collection.VisitKnativeService {σ : Type} (c : Collection) (s : σ)
    (visitor : σ → KnativeService → σ × KnativeService) : σ × Collection :=
  mapAccum (fun st r =>
    match r with
    | Resource.knativeService k => let o := visitor st k; (o.1, Resource.knativeService o.2)
    | other => (st, other)) s c

/-! ## The classpath trait (`pkg/trait/classpath.go`) -/

/-- What `Configure` leaves behind: the environment, and the Go results
`(bool, error)`. -/
structure ConfigureResult where
  env : Environment
  enabled : Bool
  err : Option String
  deriving DecidableEq

/-- What `Apply` leaves behind: the environment, and the Go result `error`. -/
structure ApplyResult where
  env : Environment
  err : Option String
  deriving DecidableEq

/-- The type `classpathTrait`: the `Enabled` flag of its `BaseTrait`, and the
cluster client, read as the function from a namespace and a name to the kit
that `t.client.Get` stores, or to its error. -/
structure classpathTrait where
  Enabled : Option Bool
  client : String → String → Except String IntegrationKit

/-- The method `classpathTrait.Configure`. -/
def classpathTrait.Configure (t : classpathTrait) (e : Environment) : ConfigureResult :=
  match t.Enabled with
  | some false => { env := e, enabled := false, err := none }
  | _ =>
    { env := e
      enabled := e.InPhase IntegrationKitPhaseReady IntegrationPhaseDeploying
      err := none }

/-- The method `classpathTrait.setJavaClasspath`, returning the edited list of
variables. -/
def classpathTrait.setJavaClasspath (cp : StrSet) (env : List EnvVar) : List EnvVar :=
  envvarSetVal env "JAVA_CLASSPATH" (stringsJoin (sortStrings cp.List) ":")

/-- Lines 58-77 of `Apply`: the kit of the environment, else the kit fetched
under the name held by the Integration status, else an error. -/
def classpathTrait.resolveKit (t : classpathTrait) (e : Environment) :
    Except String IntegrationKit :=
  match e.IntegrationKit with
  | some kit => Except.ok kit
  | none =>
    if e.Integration.Kit != "" then
      match t.client e.Integration.Namespace e.Integration.Kit with
      | Except.error err =>
        Except.error
          ("unable to find integration kit " ++ e.Integration.Kit ++ ", " ++ err ++ ": " ++ err)
      | Except.ok k => Except.ok k
    else
      Except.error ("unable to find integration kit " ++ e.Integration.Kit)

/-- Lines 79-97 of `Apply`: the environment classpath once the base entries,
the artifact targets and the wildcard entry were added. -/
def classpathTrait.baseClasspath (classpath : Option StrSet) (kit : IntegrationKit) : StrSet :=
  let cp0 := match classpath with
    | none => StrSet.New
    | some s => s
  let cp1 := (cp0.Add "/etc/camel/resources").Add "./resources"
  let cp2 := kit.Artifacts.foldl (fun s artifact => s.Add artifact.Target) cp1
  if mapIndex kit.Labels "camel.apache.org/kit.type" == IntegrationKitTypeExternal then
    cp2.Add "/deployments/dependencies/*"
  else cp2

/-- The callback handed to `VisitDeployment` (lines 100-110); the state is
`e.Classpath`. -/
def classpathTrait.deploymentVisitor (classpath : StrSet) (deployment : Deployment) :
    StrSet × Deployment :=
  let r := mapAccum (fun (st : StrSet) (c : Container) =>
    let cp := c.VolumeMounts.foldl (fun s m => s.Add m.MountPath) st.Copy
    (st, { c with Env := classpathTrait.setJavaClasspath cp c.Env })) classpath
      deployment.Containers
  (r.1, { deployment with Containers := r.2 })

/-- The callback handed to `VisitKnativeService` (lines 111-120); the state is
`e.Classpath`. -/
def classpathTrait.knativeServiceVisitor (classpath : StrSet) (service : KnativeService) :
    StrSet × KnativeService :=
  let r := mapAccum (fun (st : StrSet) (c : Container) =>
    let cp := c.VolumeMounts.foldl (fun s m => s.Add m.MountPath) st
    (cp, { c with Env := classpathTrait.setJavaClasspath cp c.Env })) classpath
      service.Containers
  (r.1, { service with Containers := r.2 })

/-- The method `classpathTrait.Apply`. -/
def classpathTrait.Apply (t : classpathTrait) (e : Environment) : ApplyResult :=
  match t.resolveKit e with
  | Except.error msg => { env := e, err := some msg }
  | Except.ok kit =>
    let cp := classpathTrait.baseClasspath e.Classpath kit
    match e.Resources with
    | none => { env := { e with Classpath := some cp }, err := none }
    | some resources =>
      let r1 := Collection.VisitDeployment resources cp classpathTrait.deploymentVisitor
      let r2 := Collection.VisitKnativeService r1.2 r1.1 classpathTrait.knativeServiceVisitor
      { env := { e with Classpath := some r2.1, Resources := some r2.2 }, err := none }

/-- The value of the container's `JAVA_CLASSPATH` variable, when it has one. -/
def Container.javaClasspath (c : Container) : Option String :=
  (envvarGet c.Env "JAVA_CLASSPATH").map (fun v => v.Value)

/-- The container as `deploymentVisitor` leaves it when the environment
classpath is `cp`. -/
def withJavaClasspath (cp : StrSet) (c : Container) : Container :=
  { c with
    Env := classpathTrait.setJavaClasspath
      (c.VolumeMounts.foldl (fun s m => s.Add m.MountPath) cp.Copy) c.Env }

/-! ## The service trait (`pkg/trait/service.go`) -/

/-- Modelled from the spec: `IntegrationStatus.SetCondition` is declared
outside the sources; it records the condition of the given type with the given
status, reason and message, in place of any earlier condition of that type. -/
def Integration.SetCondition (i : Integration) (condType : String) (status : String)
    (reason : String) (message : String) : Integration :=
  { i with
    Conditions := i.Conditions.filter (fun c => c.CondType != condType) ++
      [{ CondType := condType, Status := status, Reason := reason, Message := message }] }

/-- Modelled from the spec: `IntegrationStatus.GetCondition` is declared
outside the sources; the recorded condition of the given type. -/
def Integration.GetCondition (i : Integration) (condType : String) :
    Option IntegrationCondition :=
  i.Conditions.find? (fun c => c.CondType == condType)

/-- Modelled from the spec: `Collection.Add` is declared outside the sources;
"add(object) appends". -/
def Collection.Add (c : Collection) (resource : Resource) : Collection :=
  c ++ [resource]

/-- Modelled from the spec: `Collection.GetService` is declared outside the
sources; "find(predicate) returns the first match (insertion order)", among
the services. -/
def Collection.GetService (c : Collection) (filter : Service → Bool) : Option Service :=
  match c with
  | [] => none
  | Resource.service s :: rest =>
    if filter s then some s else Collection.GetService rest filter
  | _ :: rest => Collection.GetService rest filter

/-- Modelled from the spec: `Collection.GetServiceForIntegration` is declared
outside the sources; the find of a "service object keyed by integration name",
objects being "identified for find/update purposes by composite (kind, name)". -/
def Collection.GetServiceForIntegration (c : Collection) (integration : Integration) :
    Option Service :=
  Collection.GetService c (fun s => s.Name == integration.Name)

/-- The type `serviceTrait`: the `Enabled` flag of its `BaseTrait` and the
`Auto` option. -/
structure serviceTrait where
  Enabled : Option Bool
  Auto : Option Bool
  deriving DecidableEq, Repr

/-- The method `serviceTrait.isEnabled`. -/
def serviceTrait.isEnabled (t : serviceTrait) : Bool :=
  match t.Enabled with
  | none => true
  | some b => b

/-- The method `serviceTrait.Configure`.  The two collaborators are parameters:
`ResolveIntegrationSources` stands for `kubernetes.ResolveIntegrationSources`
bound to the trait's context and client, `ExtractAll` for `metadata.ExtractAll`. -/
def serviceTrait.Configure (t : serviceTrait)
    (ResolveIntegrationSources : Integration → Option Collection → Except String (List SourceSpec))
    (ExtractAll : RuntimeCatalog → List SourceSpec → IntegrationMetadata)
    (e : Environment) : ConfigureResult :=
  if !t.isEnabled then
    { env :=
        { e with
          Integration := e.Integration.SetCondition IntegrationConditionServiceAvailable
            ConditionFalse IntegrationConditionServiceNotAvailableReason "explicitly disabled" }
      enabled := false
      err := none }
  else if !e.IntegrationInPhase [IntegrationPhaseDeploying, IntegrationPhaseRunning] then
    { env := e, enabled := false, err := none }
  else
    match t.Auto with
    | some false => { env := e, enabled := true, err := none }
    | _ =>
      match ResolveIntegrationSources e.Integration e.Resources with
      | Except.error err =>
        { env :=
            { e with
              Integration := e.Integration.SetCondition IntegrationConditionServiceAvailable
                ConditionFalse IntegrationConditionServiceNotAvailableReason err }
          enabled := false
          err := some err }
      | Except.ok sources =>
        let metadata := ExtractAll e.CamelCatalog sources
        if !metadata.RequiresHTTPService then
          { env :=
              { e with
                Integration := e.Integration.SetCondition IntegrationConditionServiceAvailable
                  ConditionFalse IntegrationConditionServiceNotAvailableReason "no http service required" }
            enabled := false
            err := none }
        else { env := e, enabled := true, err := none }

/-- The function `getServiceFor`. -/
def getServiceFor (e : Environment) : Service :=
  { Kind := "Service"
    APIVersion := "v1"
    Name := e.Integration.Name
    Namespace := e.Integration.Namespace
    Labels := [("camel.apache.org/integration", e.Integration.Name)]
    Ports := []
    Selector := [("camel.apache.org/integration", e.Integration.Name)] }

/-- The method `serviceTrait.Apply`.  The collection is dereferenced without a
check: on an environment without one the call does not return (`none`). -/
def serviceTrait.Apply (_t : serviceTrait) (e : Environment) : Option ApplyResult :=
  match e.Resources with
  | none => none
  | some resources =>
    let svc := match Collection.GetServiceForIntegration resources e.Integration with
      | none => getServiceFor e
      | some found => found
    some { env := { e with Resources := some (Collection.Add resources (Resource.service svc)) }
           err := none }

/-- The Service objects of a collection, in insertion order. -/
def Collection.services (c : Collection) : List Service :=
  c.filterMap (fun r =>
    match r with
    | Resource.service s => some s
    | _ => none)

/-! ## Knative service definitions (`pkg/apis/camel/v1alpha1/knative/types_support.go`) -/

/-- The type `url.URL` (net/url, also `apis.URL`), restricted to the fields
read here. -/
structure URL where
  Scheme : String
  Host : String
  Path : String
  deriving DecidableEq, Repr

/-- The text after the last colon of a host, when it has a colon. -/
def afterLastColon : List Char → Option (List Char)
  | [] => none
  | c :: rest =>
    match afterLastColon rest with
    | some s => some s
    | none => if c = ':' then some rest else none

/-- The method `URL.Port` (net/url): the text after the last colon of the host
when it holds digits only, the empty string otherwise. -/
def URL.Port (u : URL) : String :=
  match afterLastColon u.Host.toList with
  | some s => if s.all Char.isDigit then String.mk s else ""
  | none => ""

/-- The value of a sequence of decimal digits, most significant first. -/
def digitsValue (digits : List Char) : Nat :=
  digits.foldl (fun acc c => 10 * acc + (c.toNat - 48)) 0

/-- The function `strconv.Atoi` for a 64-bit `int`: an optional sign and a
non-empty sequence of digits, inside the range of `int`.  The text is quoted
in the error as `strconv.Quote` quotes a text that needs no escape. -/
def strconvAtoi (s : String) : Except String Int :=
  let syntaxError : Except String Int :=
    Except.error ("strconv.Atoi: parsing \"" ++ s ++ "\": invalid syntax")
  let rangeError : Except String Int :=
    Except.error ("strconv.Atoi: parsing \"" ++ s ++ "\": value out of range")
  let unsigned (digits : List Char) (negative : Bool) : Except String Int :=
    if digits.isEmpty || !digits.all Char.isDigit then syntaxError
    else if negative then
      if digitsValue digits ≤ 9223372036854775808 then Except.ok (-(digitsValue digits : Int))
      else rangeError
    else
      if digitsValue digits ≤ 9223372036854775807 then Except.ok (digitsValue digits : Int)
      else rangeError
  match s.toList with
  | '+' :: digits => unsigned digits false
  | '-' :: digits => unsigned digits true
  | digits => unsigned digits false

/-- The type `CamelServiceDefinition`; the types `CamelServiceType` and
`CamelProtocol` are strings. -/
structure CamelServiceDefinition where
  ServiceType : String
  Protocol : String
  Name : String
  Host : String
  Port : Int
  Metadata : List (String × String)
  deriving DecidableEq, Repr

/-- The type `duckv1beta1.Addressable` (Knative). -/
structure Addressable where
  URL : Option URL
  deriving DecidableEq, Repr

/-- The type `v1alpha1.Addressable` (Knative): the embedded addressable and
the hostname. -/
structure HostAddressable where
  URL : Option URL
  Hostname : String
  deriving DecidableEq, Repr

/-- The type `v1beta1.ServiceStatus` (Knative), restricted to the fields read
here. -/
structure ServiceStatus where
  URL : Option URL
  Address : Option Addressable
  deriving DecidableEq, Repr

/-- The constant `CamelProtocolHTTP`, declared in the package's `types.go`,
which the sources do not hold: the `http` scheme. -/
def CamelProtocolHTTP : String := "http"

/-- The constant `CamelProtocolHTTPS`, declared in the package's `types.go`,
which the sources do not hold: the `https` scheme. -/
def CamelProtocolHTTPS : String := "https"

/-- The constant `CamelMetaServicePath`, declared in the package's `types.go`,
which the sources do not hold: the key of the service path. -/
def CamelMetaServicePath : String := "service.path"

/-- The function `defaultCamelProtocolPort`. -/
def defaultCamelProtocolPort (prot : String) : Int :=
  if prot = CamelProtocolHTTP then 80
  else if prot = CamelProtocolHTTPS then 443
  else -1

/-- The function `BuildCamelServiceDefinition`. -/
def BuildCamelServiceDefinition (name : String) (serviceType : String) (serviceURL : URL) :
    Except String CamelServiceDefinition :=
  let protocol := serviceURL.Scheme
  let definition : CamelServiceDefinition :=
    { Name := name
      Host := serviceURL.Host
      Port := defaultCamelProtocolPort protocol
      ServiceType := serviceType
      Protocol := protocol
      Metadata := [] }
  let portStr := serviceURL.Port
  let withPort : Except String CamelServiceDefinition :=
    if portStr != "" then
      match strconvAtoi portStr with
      | Except.error err => Except.error err
      | Except.ok port => Except.ok { definition with Port := port }
    else Except.ok definition
  match withPort with
  | Except.error err => Except.error err
  | Except.ok d =>
    let path := serviceURL.Path
    if path != "" then Except.ok { d with Metadata := [(CamelMetaServicePath, path)] }
    else Except.ok { d with Metadata := [(CamelMetaServicePath, "/")] }

/-- The function `BuildCamelServiceDefinitionFromServiceStatus`. -/
def BuildCamelServiceDefinitionFromServiceStatus (name : String) (serviceType : String)
    (status : ServiceStatus) : Except String CamelServiceDefinition :=
  let fallback : Except String CamelServiceDefinition :=
    match status.Address with
    | some address =>
      match address.URL with
      | some u =>
        if u.Host != "" then BuildCamelServiceDefinition name serviceType u
        else Except.error "cannot determine service hostname"
      | none => Except.error "cannot determine service hostname"
    | none => Except.error "cannot determine service hostname"
  match status.URL with
  | some u =>
    if u.Host != "" then BuildCamelServiceDefinition name serviceType u
    else fallback
  | none => fallback

/-- The function `BuildCamelServiceDefinitionFromAddressable`.  The parser
`url.Parse` (net/url) is a parameter. -/
def BuildCamelServiceDefinitionFromAddressable (urlParse : String → Except String URL)
    (name : String) (serviceType : String) (addressable : HostAddressable) :
    Except String CamelServiceDefinition :=
  let fallback : Except String CamelServiceDefinition :=
    if addressable.Hostname == "" then Except.error "cannot determine addressable hostname"
    else
      match urlParse ("http://" ++ addressable.Hostname) with
      | Except.error err => Except.error err
      | Except.ok serviceURL => BuildCamelServiceDefinition name serviceType serviceURL
  match addressable.URL with
  | some u =>
    if u.Host != "" then BuildCamelServiceDefinition name serviceType u
    else fallback
  | none => fallback

/-! ## The Configuration Resolver -/

/-- The semantic type of a field of a trait configuration object. -/
inductive FieldKind where
  | boolean
  | integer
  | text
  | list
  deriving DecidableEq, Repr

/-- A typed value of a field. -/
inductive FieldValue where
  | boolean (b : Bool)
  | integer (i : Int)
  | text (s : String)
  | list (items : List String)
  deriving DecidableEq, Repr

/-- The pieces of a text between the occurrences of a delimiter; `current` is
the piece being read. -/
def splitChars (delimiter : Char) (current : List Char) : List Char → List String
  | [] => [String.mk current.reverse]
  | c :: rest =>
    if c = delimiter then String.mk current.reverse :: splitChars delimiter [] rest
    else splitChars delimiter (c :: current) rest

/-- Modelled from the spec: the typed parse of the resolver, which the sources
do not hold; it parses "the string value according to the target field's
semantic type (boolean, integer, string, list-of-strings split on a
delimiter)", and an invalid value is a decode error. -/
def parseField (kind : FieldKind) (value : String) : Except String FieldValue :=
  match kind with
  | FieldKind.boolean =>
    if value = "true" then Except.ok (FieldValue.boolean true)
    else if value = "false" then Except.ok (FieldValue.boolean false)
    else Except.error ("invalid boolean: " ++ value)
  | FieldKind.integer =>
    match strconvAtoi value with
    | Except.ok i => Except.ok (FieldValue.integer i)
    | Except.error err => Except.error err
  | FieldKind.text => Except.ok (FieldValue.text value)
  | FieldKind.list => Except.ok (FieldValue.list (splitChars ',' [] value.toList))

/-- A trait configuration object: its known fields, by option name, and the
values assigned so far.  A field without a value holds the zero value. -/
structure TraitConfig where
  fields : List (String × FieldKind)
  values : List (String × FieldValue)
  deriving DecidableEq, Repr

/-- The value of a field of a configuration object, when one was assigned. -/
def TraitConfig.get (c : TraitConfig) (option : String) : Option FieldValue :=
  match c.values.find? (fun kv => kv.1 == option) with
  | some kv => some kv.2
  | none => none

/-- The assignment of a field, "overwriting any value set by an earlier level". -/
def TraitConfig.assign (c : TraitConfig) (option : String) (value : FieldValue) :
    TraitConfig :=
  { c with values := (option, value) :: c.values.filter (fun kv => kv.1 != option) }

/-- The value that a level gives to an option, when the level sets it. -/
def levelValue (spec : List (String × String)) (option : String) : Option String :=
  match spec.find? (fun kv => kv.1 == option) with
  | some kv => some kv.2
  | none => none

/-- Modelled from the spec: one decode step of the resolver, which the sources
do not hold (the test calls it `decodeTraitSpec`).  "For every option-name
present in that level's mapping", the value is parsed and assigned to the
field of that name; "options with no matching field are ignored", and an
invalid value for a known field is a decode error. -/
def decodeFields (spec : List (String × String)) :
    List (String × FieldKind) → TraitConfig → Except String TraitConfig
  | [], target => Except.ok target
  | (option, kind) :: rest, target =>
    match levelValue spec option with
    | none => decodeFields spec rest target
    | some value =>
      match parseField kind value with
      | Except.error err => Except.error err
      | Except.ok v => decodeFields spec rest (target.assign option v)

/-- Modelled from the spec: `decodeTraitSpec`, one decode step onto the target. -/
def decodeTraitSpec (spec : List (String × String)) (target : TraitConfig) :
    Except String TraitConfig :=
  decodeFields spec target.fields target

/-- The mapping that a source of configuration holds for a trait: "a trait
identifier absent from a source contributes nothing at that level". -/
def traitSpecOf (source : List (String × List (String × String))) (traitID : String) :
    List (String × String) :=
  match source.find? (fun kv => kv.1 == traitID) with
  | some kv => kv.2
  | none => []

/-- Modelled from the spec: the resolver of §4.1, which the sources do not
hold.  "Decoding order is fixed: Platform, Kit, Integration", onto the
zero-valued target; a decode error aborts the resolution of the trait. -/
def resolve (traitID : String) (platformSpec : List (String × List (String × String)))
    (kitSpec : List (String × List (String × String)))
    (integrationSpec : List (String × List (String × String)))
    (target : TraitConfig) : Except String TraitConfig :=
  match decodeTraitSpec (traitSpecOf platformSpec traitID) target with
  | Except.error err => Except.error err
  | Except.ok afterPlatform =>
    match decodeTraitSpec (traitSpecOf kitSpec traitID) afterPlatform with
    | Except.error err => Except.error err
    | Except.ok afterKit => decodeTraitSpec (traitSpecOf integrationSpec traitID) afterKit

/-- The value that the three levels give to an option: the one of the most
specific level that sets it. -/
def mostSpecificValue (traitID : String) (platformSpec : List (String × List (String × String)))
    (kitSpec : List (String × List (String × String)))
    (integrationSpec : List (String × List (String × String))) (option : String) :
    Option String :=
  match levelValue (traitSpecOf integrationSpec traitID) option with
  | some v => some v
  | none =>
    match levelValue (traitSpecOf kitSpec traitID) option with
    | some v => some v
    | none => levelValue (traitSpecOf platformSpec traitID) option

/-- The typed value that an option text stands for, when it is valid. -/
def parsedValue (kind : FieldKind) (value : String) : Option FieldValue :=
  match parseField kind value with
  | Except.ok v => some v
  | Except.error _ => none

/-- Modelled from the spec: the zero-valued configuration object of the
`knative-service` trait, which the sources do not hold; the fields are the
ones `TestTraitHierarchyDecode` reads (`Enabled`, `MinScale`, `MaxScale`,
`Target`), under the option names the test sets. -/
def newKnativeServiceTrait : TraitConfig :=
  { fields :=
      [("enabled", FieldKind.boolean), ("min-scale", FieldKind.integer),
       ("max-scale", FieldKind.integer), ("autoscaling-target", FieldKind.integer)]
    values := [] }

/-- The platform configuration of `TestTraitHierarchyDecode`. -/
def testPlatformTraits : List (String × List (String × String)) :=
  [("knative-service",
    [("enabled", "false"), ("min-scale", "1"), ("max-scale", "10"),
     ("autoscaling-target", "15")])]

/-- The kit configuration of `TestTraitHierarchyDecode`. -/
def testKitTraits : List (String × List (String × String)) :=
  [("knative-service", [("enabled", "true"), ("min-scale", "5")])]

/-- The integration configuration of `TestTraitHierarchyDecode`. -/
def testIntegrationTraits : List (String × List (String × String)) :=
  [("knative-service", [("max-scale", "20")])]

/-! ## The Quarkus builder (`pkg/builder/quarkus`) -/

/-! ### Paths (`path.Clean`, `path.Join`) -/

/-- The elements of a path that `path.Clean` keeps, innermost first: empty
elements and `.` are dropped, `..` removes the element before it, is kept at
the start of a path that is not rooted, and is dropped at the root. -/
def cleanElements (rooted : Bool) : List String → List String → List String
  | [], kept => kept
  | element :: rest, kept =>
    if element = "" ∨ element = "." then cleanElements rooted rest kept
    else if element = ".." then
      match kept with
      | top :: below =>
        if top = ".." then cleanElements rooted rest (".." :: kept)
        else cleanElements rooted rest below
      | [] =>
        if rooted then cleanElements rooted rest []
        else cleanElements rooted rest [".."]
    else cleanElements rooted rest (element :: kept)

/-- The function `path.Clean`. -/
def pathClean (p : String) : String :=
  match p.toList with
  | [] => "."
  | first :: _ =>
    let rooted := decide (first = '/')
    let kept := (cleanElements rooted (splitChars '/' [] p.toList) []).reverse
    if rooted then "/" ++ "/".intercalate kept
    else if kept.isEmpty then "."
    else "/".intercalate kept

/-- The function `path.Join`: the elements from the first non-empty one on,
separated by slashes and cleaned; the empty string when there is none. -/
def pathJoin (elem : List String) : String :=
  match elem.dropWhile (fun e => e == "") with
  | [] => ""
  | parts => pathClean ("/".intercalate parts)

/-! ### The build context -/

/-- The type `maven.Dependency`, restricted to the fields set here. -/
structure Dependency where
  GroupID : String
  ArtifactID : String
  Version : String
  DepType : String
  Scope : String
  deriving DecidableEq, Repr

/-- The type `maven.Execution`. -/
structure Execution where
  ID : String
  Goals : List String
  deriving DecidableEq, Repr

/-- The type `maven.Plugin`. -/
structure Plugin where
  GroupID : String
  ArtifactID : String
  Version : String
  Executions : List Execution
  deriving DecidableEq, Repr

/-- The type `maven.Project`; `DependencyManagement` is
`DependencyManagement.Dependencies` and `Plugins` is `Build.Plugins`. -/
structure Project where
  GroupID : String
  ArtifactID : String
  Version : String
  Dependencies : List Dependency
  DependencyManagement : List Dependency
  Plugins : List Plugin
  deriving DecidableEq, Repr

/-- The type `builder.Context`, restricted to the fields the Quarkus steps
use; `RuntimeVersion` is `Request.RuntimeVersion` and `LocalRepository` is
`Request.Platform.Build.LocalRepository`. -/
structure Context where
  Path : String
  Project : Project
  RuntimeVersion : String
  LocalRepository : String
  Artifacts : List Artifact
  deriving DecidableEq, Repr

/-- The constant `Version`. -/
def Version : String := "0.11.0"

/-- The function `InjectDependencies`.  The method `Project.AddDependencies`
(pkg/util/maven), which the sources do not hold, is a parameter. -/
def InjectDependencies (AddDependencies : Project → List Dependency → Project)
    (ctx : Context) : Context × Option String :=
  let withBom : Project :=
    { ctx.Project with
      DependencyManagement := ctx.Project.DependencyManagement ++
        [{ GroupID := "io.quarkus", ArtifactID := "quarkus-bom", Version := Version,
           DepType := "pom", Scope := "import" }] }
  let withDependencies : Project := AddDependencies withBom
    [{ GroupID := "io.quarkus", ArtifactID := "quarkus-arc", Version := "", DepType := "",
       Scope := "" },
     { GroupID := "org.apache.camel.k", ArtifactID := "camel-k-quarkus-deployment",
       Version := ctx.RuntimeVersion, DepType := "", Scope := "provided" },
     { GroupID := "org.apache.camel.k", ArtifactID := "camel-k-quarkus-runtime",
       Version := ctx.RuntimeVersion, DepType := "", Scope := "runtime" },
     { GroupID := "org.apache.camel.k", ArtifactID := "camel-k-runtime-quarkus",
       Version := ctx.RuntimeVersion, DepType := "", Scope := "runtime" }]
  let withPlugin : Project :=
    { withDependencies with
      Plugins := withDependencies.Plugins ++
        [{ GroupID := "io.quarkus", ArtifactID := "quarkus-maven-plugin", Version := Version,
           Executions := [{ ID := "", Goals := ["build"] }] }] }
  ({ ctx with Project := withPlugin }, none)

/-- The external calls of `BuildProject`, each read as the function from its
arguments to the error it returns, if any. -/
structure BuildTools where
  CreateStructure : String → Project → Option String
  MkdirAll : String → Option String
  ExtraOptions : String → List String
  Run : String → List String → Option String

/-- The function `BuildProject`. -/
def BuildProject (tools : BuildTools) (ctx : Context) : Context × Option String :=
  let p := pathJoin [ctx.Path, "maven"]
  match tools.CreateStructure p ctx.Project with
  | some err => (ctx, some err)
  | none =>
    let classesPath := pathJoin [p, "target", "classes"]
    match tools.MkdirAll classesPath with
    | some err => (ctx, some err)
    | none =>
      let opts := tools.ExtraOptions ctx.LocalRepository ++ ["package"]
      match tools.Run p opts with
      | some err => (ctx, some ("failure while building Quarkus project: " ++ err))
      | none => (ctx, none)

/-! ### Walking the library directory (`filepath.Walk`) -/

/-- The type `os.FileInfo`, restricted to the methods called here. -/
structure FileInfo where
  Name : String
  IsDir : Bool
  deriving DecidableEq, Repr

/-- One call of the walk function: the path, the file info (`nil` when the
file could not be examined) and the error met on the way to it. -/
structure WalkEntry where
  path : String
  info : Option FileInfo
  err : Option String
  deriving DecidableEq, Repr

/-- The function `filepath.Walk` for a walk function that never asks to skip a
directory: `visits` are the calls of a full walk, in order; the walk stops at
the first error the walk function returns, and returns it.  The walk function
returns `none` when it does not return (a runtime panic). -/
def filepathWalk {σ : Type} (walkFn : σ → WalkEntry → Option (σ × Option String)) :
    List WalkEntry → σ → Option (σ × Option String)
  | [], s => some (s, none)
  | visit :: rest, s =>
    match walkFn s visit with
    | none => none
    | some (s1, some err) => some (s1, some err)
    | some (s1, none) => filepathWalk walkFn rest s1

/-- The walk function of `ComputeDependencies` (lines 94-99); the state is the
slice `files`.  The call `info.IsDir()` on a `nil` info does not return. -/
def collectFile (files : List String) (visit : WalkEntry) :
    Option (List String × Option String) :=
  match visit.info with
  | none => none
  | some info =>
    if !info.IsDir then some (files ++ [info.Name], none)
    else some (files, none)

/-! ### The coordinate pattern (`regexp`) -/

/-- The regular expressions that the pattern of `ComputeDependencies` is made
of; a repetition is greedy. -/
inductive Regex where
  | char (c : Char)
  | any
  | plusClass (cls : Char → Bool)
  | seq (a : Regex) (b : Regex)
  | opt (a : Regex)
  | group (index : Nat) (a : Regex)

/-- A state of a match: the text still to read, the offset reached and the
offsets of the groups closed so far (`-1` for a group not closed). -/
structure MatchState where
  rest : List Char
  pos : Nat
  caps : List Int
  deriving DecidableEq, Repr

/-- The greedy repetition `[...]+`: at least one character of the class; the
longest run is tried first, then the shorter ones. -/
def plusRun (cls : Char → Bool) (k : MatchState → Option MatchState) (caps : List Int) :
    List Char → Nat → Option MatchState
  | [], _ => none
  | c :: rest, pos =>
    if cls c then
      match plusRun cls k caps rest (pos + 1) with
      | some r => some r
      | none => k { rest := rest, pos := pos + 1, caps := caps }
    else none

/-- The leftmost-first match of an expression at the start of the text of a
state, followed by the continuation `k`: the first success in the order in
which a backtracking search meets them. -/
def Regex.run : Regex → (MatchState → Option MatchState) → MatchState → Option MatchState
  | Regex.char c, k, s =>
    match s.rest with
    | x :: xs => if x = c then k { s with rest := xs, pos := s.pos + 1 } else none
    | [] => none
  | Regex.any, k, s =>
    match s.rest with
    | x :: xs => if x = '\n' then none else k { s with rest := xs, pos := s.pos + 1 }
    | [] => none
  | Regex.plusClass cls, k, s => plusRun cls k s.caps s.rest s.pos
  | Regex.seq a b, k, s => a.run (fun s1 => b.run k s1) s
  | Regex.opt a, k, s =>
    match a.run k s with
    | some r => some r
    | none => k s
  | Regex.group index a, k, s =>
    a.run (fun s1 =>
      k { rest := s1.rest
          pos := s1.pos
          caps := (s1.caps.set (2 * index) (s.pos : Int)).set (2 * index + 1) (s1.pos : Int) }) s

/-- The search of the leftmost match: the start offsets are tried from left to
right. -/
def findAt (re : Regex) (groups : Nat) : List Char → Nat → Option (List Int)
  | [], pos =>
    match re.run (fun s => some s)
        { rest := [], pos := pos, caps := List.replicate (2 * (groups + 1)) (-1) } with
    | some s => some ((s.caps.set 0 (pos : Int)).set 1 (s.pos : Int))
    | none => none
  | c :: rest, pos =>
    match re.run (fun s => some s)
        { rest := c :: rest, pos := pos, caps := List.replicate (2 * (groups + 1)) (-1) } with
    | some s => some ((s.caps.set 0 (pos : Int)).set 1 (s.pos : Int))
    | none => findAt re groups rest (pos + 1)

/-- The method `Regexp.FindStringSubmatchIndex`: the offsets of the leftmost
match and of its groups, `nil` when the text has no match.  Offsets count
characters; they are Go's byte offsets on a text in ASCII.  On a text with a
character of several bytes before the match Go's offsets are larger, and
`s[2]-1` then cuts inside that character when it comes right before the match. -/
def FindStringSubmatchIndex (re : Regex) (groups : Nat) (s : String) : List Int :=
  match findAt re groups s.toList 0 with
  | some loc => loc
  | none => []

/-- The class `\w`. -/
def wordChar (c : Char) : Bool := c.isAlphanum || c == '_'

/-- The part `(?:-[\w]+)` of the pattern. -/
def dashQualifier : Regex :=
  Regex.seq (Regex.char '-') (Regex.plusClass wordChar)

/-- The part `([\w.]+(?:-[\w]+)?)` of the pattern, its second group. -/
def versionGroup : Regex :=
  Regex.group 2
    (Regex.seq (Regex.plusClass (fun c => wordChar c || c == '.')) (Regex.opt dashQualifier))

/-- The part `.jar` of the pattern: any character, then `jar`. -/
def jarSuffix : Regex :=
  Regex.seq Regex.any
    (Regex.seq (Regex.char 'j') (Regex.seq (Regex.char 'a') (Regex.char 'r')))

/-- The pattern `([\w-]+)-([\w.]+(?:-[\w]+)?).jar` compiled at line 104. -/
def rex : Regex :=
  Regex.seq (Regex.group 1 (Regex.plusClass (fun c => wordChar c || c == '-')))
    (Regex.seq (Regex.char '-') (Regex.seq versionGroup jarSuffix))

/-- The slice expression `s[low:high]`: it does not return (`none`, a runtime
panic) unless `0 <= low <= high <= len(s)`. -/
def sliceString (s : String) (low : Int) (high : Int) : Option String :=
  if 0 ≤ low ∧ low ≤ high ∧ high ≤ (s.length : Int) then
    some (String.mk ((s.toList.drop low.toNat).take (high.toNat - low.toNat)))
  else none

/-! ### `ComputeDependencies` -/

/-- The body of the loop over `files` (lines 107-120): `some none` when the
file is skipped, `some (some artifact)` when an artifact is appended, `none`
when a slice expression is out of range. -/
def libraryArtifact (lib : String) (file : String) : Option (Option Artifact) :=
  let s := FindStringSubmatchIndex rex 2 file
  if s.length != 6 then some none
  else
    match sliceString file 0 (s.getD 2 0 - 1) with
    | none => none
    | some groupId =>
      match sliceString file (s.getD 2 0) (s.getD 3 0) with
      | none => none
      | some artifactId =>
        match sliceString file (s.getD 4 0) (s.getD 5 0) with
        | none => none
        | some version =>
          some (some
            { ID := groupId ++ ":" ++ artifactId ++ ":" ++ version
              Location := pathJoin [lib, file]
              Target := pathJoin ["dependencies", file] })

/-- The loop over `files` (lines 106-121), from the artifacts held so far. -/
def appendLibraryArtifacts (lib : String) : List String → List Artifact →
    Option (List Artifact)
  | [], artifacts => some artifacts
  | file :: rest, artifacts =>
    match libraryArtifact lib file with
    | none => none
    | some none => appendLibraryArtifacts lib rest artifacts
    | some (some artifact) => appendLibraryArtifacts lib rest (artifacts ++ [artifact])

/-- The artifact of the packaged application (lines 123-128). -/
def runnerArtifact (ctx : Context) : Artifact :=
  let target := pathJoin [ctx.Path, "maven", "target"]
  let runner := ctx.Project.ArtifactID ++ "-" ++ ctx.Project.Version ++ "-runner.jar"
  { ID := ctx.Project.GroupID ++ ":" ++ ctx.Project.ArtifactID ++ ":" ++ ctx.Project.Version
    Location := pathJoin [target, runner]
    Target := runner }

/-- The function `ComputeDependencies`.  The file system is a parameter:
`walk` gives, for a root, the calls that `filepath.Walk` makes.  The result is
`none` when the function does not return (a runtime panic). -/
def ComputeDependencies (walk : String → List WalkEntry) (ctx : Context) :
    Option (Context × Option String) :=
  let lib := pathJoin [ctx.Path, "maven", "target", "lib"]
  match filepathWalk collectFile (walk lib) [] with
  | none => none
  | some (_, some err) => some (ctx, some err)
  | some (files, none) =>
    match appendLibraryArtifacts lib files ctx.Artifacts with
    | none => none
    | some artifacts => some ({ ctx with Artifacts := artifacts ++ [runnerArtifact ctx] }, none)

/-! ### The steps and the pipeline -/

/-- The type `builder.Step`: an identifier, a phase and a task.  A task
returns the context it leaves behind and its error, or does not return. -/
structure Step where
  ID : String
  phase : Int
  task : Context → Option (Context × Option String)

/-- The function `builder.NewStep`. -/
def NewStep (ID : String) (phase : Int) (task : Context → Option (Context × Option String)) :
    Step :=
  { ID := ID, phase := phase, task := task }

/-- The variable `DefaultSteps`.  The phase constants
`builder.ProjectGenerationPhase` and `builder.ProjectBuildPhase`, which the
sources do not hold, are parameters, next to the collaborators of the tasks. -/
def DefaultSteps (ProjectGenerationPhase : Int) (ProjectBuildPhase : Int)
    (AddDependencies : Project → List Dependency → Project) (tools : BuildTools)
    (walk : String → List WalkEntry) : List Step :=
  [NewStep "project/quarkus-dependencies" (ProjectGenerationPhase + 3)
     (fun ctx => some (InjectDependencies AddDependencies ctx)),
   NewStep "build/quarkus-package" ProjectBuildPhase
     (fun ctx => some (BuildProject tools ctx)),
   NewStep "build/compute-dependencies" (ProjectBuildPhase + 1)
     (ComputeDependencies walk)]

/-- The place of a step among steps already in order: before the first step of
an equal or later phase. -/
def insertStep (step : Step) : List Step → List Step
  | [] => [step]
  | next :: rest =>
    if step.phase ≤ next.phase then step :: next :: rest
    else next :: insertStep step rest

/-- Modelled from the spec: the order of execution of the pipeline, which the
sources do not hold; "sorts all registered steps by (phase,
registration-index)". -/
def sortSteps (steps : List Step) : List Step :=
  steps.foldr insertStep []

/-- What a run of the pipeline leaves behind: the context, the identifiers of
the steps that were executed, in order, and the error of the run. -/
structure RunResult where
  ctx : Context
  executed : List String
  err : Option String
  deriving DecidableEq, Repr

/-- Modelled from the spec: the sequential execution of the pipeline, which
the sources do not hold; "each step receives the shared Build Context and
returns an error; the first error aborts the pipeline and is propagated
verbatim to the caller". -/
def runSteps : List Step → Context → List String → Option RunResult
  | [], ctx, executed => some { ctx := ctx, executed := executed, err := none }
  | step :: rest, ctx, executed =>
    match step.task ctx with
    | none => none
    | some (ctx1, some err) =>
      some { ctx := ctx1, executed := executed ++ [step.ID], err := some err }
    | some (ctx1, none) => runSteps rest ctx1 (executed ++ [step.ID])

/-- Modelled from the spec: the pipeline contract `run(context)` of §4.5. -/
def runPipeline (steps : List Step) (ctx : Context) : Option RunResult :=
  runSteps (sortSteps steps) ctx []

/-! ## The platform create action (`pkg/controller/integrationplatform/create.go`) -/

/-- The type `v1alpha1.IntegrationPlatform`, restricted to its metadata, to
`Spec.Cluster` and `Spec.Profile`, and to `Status.Phase`. -/
structure IntegrationPlatform where
  Namespace : String
  Name : String
  Labels : List (String × String)
  Cluster : String
  Profile : String
  Phase : String
  deriving DecidableEq, Repr

/-- The constant `v1alpha1.IntegrationPlatformPhaseCreating`, declared in the
API package, which the sources do not hold: the phase "Creating". -/
def IntegrationPlatformPhaseCreating : String := "Creating"

/-- The constant `v1alpha1.IntegrationPlatformPhaseStarting`, declared in the
API package, which the sources do not hold: the phase "Starting". -/
def IntegrationPlatformPhaseStarting : String := "Starting"

/-- The constant `v1alpha1.TraitProfileKnative`, declared in the API package,
which the sources do not hold: the Knative profile. -/
def TraitProfileKnative : String := "Knative"

/-- The variable `resources`. -/
def resources : List String :=
  ["platform-integration-context-jvm.yaml",
   "platform-integration-context-groovy.yaml",
   "platform-integration-context-kotlin.yaml",
   "platform-integration-context-spring-boot.yaml"]

/-- The variable `knativeResources`. -/
def knativeResources : List String :=
  ["platform-integration-context-knative.yaml"]

/-- The method `IntegrationPlatform.DeepCopy`, generated code that the sources
do not hold: a copy that shares no state with the platform.  Values are
immutable here, so the copy is the value itself. -/
def IntegrationPlatform.DeepCopy (platform : IntegrationPlatform) : IntegrationPlatform :=
  platform

/-- A call that `Handle` makes to the cluster: an installation of resources in
a namespace, or the update of a platform. -/
inductive ClusterCall where
  | install (ns : String) (names : List String)
  | update (target : IntegrationPlatform)
  deriving DecidableEq, Repr

/-- The type `createAction`: its collaborators, each read as the function from
its arguments to the error it returns, if any.  `installResources` stands for
`install.Resources` bound to the context and the client of the action,
`update` for `action.client.Update`. -/
structure createAction where
  installResources : String → List String → Option String
  update : IntegrationPlatform → Option String

/-- What `Handle` leaves behind: the platform object it was given, the calls it
made to the cluster, in order, and the Go result `error`. -/
structure HandleResult where
  platform : IntegrationPlatform
  calls : List ClusterCall
  err : Option String
  deriving DecidableEq, Repr

/-- The method `createAction.Name`. -/
def createAction.Name (_action : createAction) : String := "create"

/-- The method `createAction.CanHandle`. -/
def createAction.CanHandle (_action : createAction) (platform : IntegrationPlatform) : Bool :=
  platform.Phase == IntegrationPlatformPhaseCreating

/-- Lines 71-75 of `Handle`: the copy of the platform moves to the starting
phase and is submitted as an update. -/
def createAction.submitStarting (action : createAction) (platform : IntegrationPlatform)
    (calls : List ClusterCall) : HandleResult :=
  let target := { platform.DeepCopy with Phase := IntegrationPlatformPhaseStarting }
  { platform := platform
    calls := calls ++ [ClusterCall.update target]
    err := action.update target }

/-- The method `createAction.Handle`. -/
def createAction.Handle (action : createAction) (platform : IntegrationPlatform) :
    HandleResult :=
  match action.installResources platform.Namespace resources with
  | some err =>
    { platform := platform
      calls := [ClusterCall.install platform.Namespace resources]
      err := some err }
  | none =>
    if platform.Profile == TraitProfileKnative then
      match action.installResources platform.Namespace knativeResources with
      | some err =>
        { platform := platform
          calls := [ClusterCall.install platform.Namespace resources,
            ClusterCall.install platform.Namespace knativeResources]
          err := some err }
      | none =>
        action.submitStarting platform
          [ClusterCall.install platform.Namespace resources,
            ClusterCall.install platform.Namespace knativeResources]
    else
      action.submitStarting platform [ClusterCall.install platform.Namespace resources]

/-! ## Sample environments -/

/-- A ready kit without artifacts and without labels. -/
def sampleKit : IntegrationKit :=
  { Namespace := "ns", Name := "kit", Labels := [], Phase := "Ready", Artifacts := [] }

/-- An externally built kit with one artifact. -/
def sampleExternalKit : IntegrationKit :=
  { Namespace := "ns"
    Name := "kit-ext"
    Labels := [("camel.apache.org/kit.type", "external")]
    Phase := "Ready"
    Artifacts := [{ ID := "org.acme:lib:1.0", Location := "/tmp/lib.jar", Target := "lib/lib.jar" }] }

/-- The integration of the trait tests: `test` in namespace `ns`, deploying. -/
def sampleIntegration : Integration :=
  { Name := "test", Namespace := "ns", Sources := [], Phase := "Deploying", Kit := "",
    Conditions := [] }

/-- A classpath trait whose client finds no kit. -/
def sampleClasspathTrait : classpathTrait :=
  { Enabled := none, client := fun _ _ => Except.error "not found" }

/-- A container that mounts `/a` and `/b`. -/
def sampleContainer : Container :=
  { Name := "integration", Env := [],
    VolumeMounts := [{ Name := "a", MountPath := "/a" }, { Name := "b", MountPath := "/b" }] }

/-- A deployment with the container above. -/
def sampleDeployment : Deployment :=
  { Name := "test", Containers := [sampleContainer] }

/-- An environment holding the kit and the deployment, with no classpath yet. -/
def sampleEnv : Environment :=
  { CamelCatalog := { Version := "3.0.0" }
    Integration := sampleIntegration
    IntegrationKit := some sampleKit
    Classpath := none
    Resources := some [Resource.deployment sampleDeployment] }

/-- The same environment with the externally built kit. -/
def sampleExternalEnv : Environment :=
  { sampleEnv with IntegrationKit := some sampleExternalKit }

/-- A Knative service with two containers: the first mounts `/a`, the second
mounts `/b`. -/
def sampleKnativeService : KnativeService :=
  { Name := "test"
    Containers :=
      [{ Name := "first", Env := [], VolumeMounts := [{ Name := "a", MountPath := "/a" }] },
       { Name := "second", Env := [], VolumeMounts := [{ Name := "b", MountPath := "/b" }] }] }

/-- An environment holding the kit and the Knative service. -/
def sampleKnativeEnv : Environment :=
  { sampleEnv with Resources := some [Resource.knativeService sampleKnativeService] }

/-- An environment without a kit, whose Integration status names none. -/
def sampleKitlessEnv : Environment :=
  { sampleEnv with IntegrationKit := none }

/-- A service trait with every option unset. -/
def sampleServiceTrait : serviceTrait := { Enabled := none, Auto := none }

/-- A service trait that is explicitly disabled. -/
def sampleDisabledServiceTrait : serviceTrait := { Enabled := some false, Auto := none }

/-- A source resolver that returns the sources of the Integration spec. -/
def sampleResolveSources (integration : Integration) (_resources : Option Collection) :
    Except String (List SourceSpec) :=
  Except.ok integration.Sources

/-- A metadata extractor that requires an HTTP service for the sources that
consume from `undertow:http`. -/
def sampleExtractAll (_catalog : RuntimeCatalog) (sources : List SourceSpec) :
    IntegrationMetadata :=
  { RequiresHTTPService := sources.any (fun s => s.Content == "undertow:http") }

/-- The sample environment with one source that consumes from `undertow:http`. -/
def sampleWebEnv : Environment :=
  { sampleEnv with
    Integration :=
      { sampleIntegration with
        Sources := [{ Name := "file.groovy", Content := "undertow:http", Language := "groovy" }] } }

/-- The sample environment whose collection already holds the service of the
integration. -/
def sampleServiceEnv : Environment :=
  { sampleEnv with
    Resources := some [Resource.deployment sampleDeployment,
      Resource.service (getServiceFor sampleEnv)] }

/-- The sample environment with an Integration that is still building its kit. -/
def sampleBuildingEnv : Environment :=
  { sampleWebEnv with
    Integration := { sampleWebEnv.Integration with Phase := "Building Kit" } }

/-- A parser that reads `http://` followed by letters, digits, dots and
hyphens as a URL with that host and nothing else. -/
def sampleURLParse (rawURL : String) : Except String URL :=
  match rawURL.toList with
  | 'h' :: 't' :: 't' :: 'p' :: ':' :: '/' :: '/' :: host =>
    if host.all (fun c => c.isAlphanum || c == '.' || c == '-') then
      Except.ok { Scheme := "http", Host := String.mk host, Path := "" }
    else Except.error "unsupported"
  | _ => Except.error "unsupported"

/-- A service status whose route URL has no host and whose address has one. -/
def sampleServiceStatus : ServiceStatus :=
  { URL := some { Scheme := "http", Host := "", Path := "" }
    Address := some { URL := some { Scheme := "https", Host := "svc.ns:8443", Path := "/in" } } }

/-- An addressable with a hostname and no URL. -/
def sampleAddressable : HostAddressable :=
  { URL := none, Hostname := "svc.ns.svc.cluster.local" }

/-- A build context for the project `org.acme:app:1.0` staged in `/tmp/build`. -/
def sampleContext : Context :=
  { Path := "/tmp/build"
    Project :=
      { GroupID := "org.acme", ArtifactID := "app", Version := "1.0", Dependencies := [],
        DependencyManagement := [], Plugins := [] }
    RuntimeVersion := "1.0.8"
    LocalRepository := ""
    Artifacts := [] }

/-- A library directory that holds one library and one file that is not a
library. -/
def sampleWalk (root : String) : List WalkEntry :=
  [{ path := root, info := some { Name := "lib", IsDir := true }, err := none },
   { path := root ++ "/org.apache.camel.camel-core-3.0.0.jar"
     info := some { Name := "org.apache.camel.camel-core-3.0.0.jar", IsDir := false }
     err := none },
   { path := root ++ "/readme.txt"
     info := some { Name := "readme.txt", IsDir := false }
     err := none }]

/-- A library directory that is missing: the walk reports the error of the
root, with no file info. -/
def sampleMissingWalk (root : String) : List WalkEntry :=
  [{ path := root, info := none
     err := some ("lstat " ++ root ++ ": no such file or directory") }]

/-- A library directory that cannot be read: the walk reports the error next
to the info of the directory. -/
def sampleUnreadableWalk (root : String) : List WalkEntry :=
  [{ path := root, info := some { Name := "lib", IsDir := true }
     err := some ("open " ++ root ++ ": permission denied") }]

/-- An `AddDependencies` that appends the dependencies. -/
def sampleAddDependencies (project : Project) (deps : List Dependency) : Project :=
  { project with Dependencies := project.Dependencies ++ deps }

/-- Build tools that all succeed. -/
def sampleBuildTools : BuildTools :=
  { CreateStructure := fun _ _ => none
    MkdirAll := fun _ => none
    ExtraOptions := fun _ => []
    Run := fun _ _ => none }

/-- Build tools whose Maven run fails. -/
def sampleFailingBuildTools : BuildTools :=
  { sampleBuildTools with Run := fun _ _ => some "exit status 1" }

/-- A library directory that holds one library whose name has no group
before the artifact. -/
def samplePlainWalk (root : String) : List WalkEntry :=
  [{ path := root, info := some { Name := "lib", IsDir := true }, err := none },
   { path := root ++ "/camel-core-3.0.0.jar"
     info := some { Name := "camel-core-3.0.0.jar", IsDir := false }
     err := none }]

/-- A platform in the creating phase with the Knative profile. -/
def sampleKnativePlatform : IntegrationPlatform :=
  { Namespace := "ns", Name := "camel-k", Labels := [("app", "camel-k")],
    Cluster := "Kubernetes", Profile := "Knative", Phase := "Creating" }

/-- A platform in the creating phase with the OpenShift profile. -/
def sampleOpenShiftPlatform : IntegrationPlatform :=
  { sampleKnativePlatform with Cluster := "OpenShift", Profile := "OpenShift" }

/-- A create action whose installations and whose update succeed. -/
def sampleCreateAction : createAction :=
  { installResources := fun _ _ => none, update := fun _ => none }

/-- A create action whose installation of the Knative resources fails. -/
def sampleFailingCreateAction : createAction :=
  { installResources := fun _ names =>
      if names = knativeResources then some "forbidden" else none
    update := fun _ => none }

/-! ## The order of strings -/

theorem char_toNat_lt_iff (a b : Char) : a.toNat < b.toNat ↔ a < b := by
  rw [Char.lt_def]
  rfl

theorem char_eq_of_toNat_eq (a b : Char) (h : a.toNat = b.toNat) : a = b := by
  apply Char.ext
  apply UInt32.ext
  exact h

theorem ltChars_iff (a b : List Char) : ltChars a b = true ↔ a < b := by
  induction a generalizing b with
  | nil =>
    cases b with
    | nil => simp [ltChars]
    | cons y ys =>
      simp only [ltChars, true_iff]
      exact List.Lex.nil
  | cons x xs ih =>
    cases b with
    | nil => simp [ltChars]
    | cons y ys =>
      unfold ltChars
      by_cases h1 : x.toNat < y.toNat
      · simp only [h1, if_true, true_iff]
        exact List.Lex.rel ((char_toNat_lt_iff x y).1 h1)
      · by_cases h2 : y.toNat < x.toNat
        · simp only [h1, h2, if_false, if_true]
          constructor
          · intro h; cases h
          · intro h
            cases h with
            | rel hlt => exact absurd ((char_toNat_lt_iff x y).2 hlt) h1
            | cons _ => exact absurd h2 (lt_irrefl _)
        · simp only [h1, h2, if_false]
          rw [ih ys]
          have hxy : x = y := char_eq_of_toNat_eq x y (by omega)
          subst hxy
          constructor
          · intro h
            exact List.Lex.cons h
          · intro h
            cases h with
            | rel hlt => exact absurd hlt (lt_irrefl _)
            | cons ht => exact ht

theorem strLt_iff (a b : String) : strLt a b = true ↔ a < b := by
  unfold strLt
  rw [ltChars_iff, String.lt_iff_toList_lt]

theorem strLe_iff (a b : String) : strLe a b = true ↔ a ≤ b := by
  unfold strLe
  rw [Bool.not_eq_true', ← not_lt, ← strLt_iff]
  simp

theorem strLe_total (a b : String) : strLe a b = true ∨ strLe b a = true := by
  simp only [strLe_iff]
  exact le_total a b

theorem strLe_trans (a b c : String) (h1 : strLe a b = true) (h2 : strLe b c = true) :
    strLe a c = true := by
  rw [strLe_iff] at h1 h2 ⊢
  exact le_trans h1 h2

theorem sortStrings_perm (l : List String) : (sortStrings l).Perm l :=
  List.perm_insertionSort _ l

theorem sortStrings_sorted_le (l : List String) : (sortStrings l).Sorted (· ≤ ·) := by
  haveI : IsTotal String (fun a b => strLe a b = true) := ⟨strLe_total⟩
  haveI : IsTrans String (fun a b => strLe a b = true) := ⟨strLe_trans⟩
  have h := List.sorted_insertionSort (fun a b : String => strLe a b = true) l
  exact List.Pairwise.imp (fun {a b} hab => (strLe_iff a b).1 hab) h

theorem sortStrings_mem (l : List String) (x : String) : x ∈ sortStrings l ↔ x ∈ l :=
  (sortStrings_perm l).mem_iff

theorem sortStrings_sorted_lt (l : List String) (h : l.Nodup) :
    (sortStrings l).Sorted (· < ·) := by
  have hs := sortStrings_sorted_le l
  have hn : (sortStrings l).Nodup := (sortStrings_perm l).nodup_iff.2 h
  exact (List.Sorted.lt_of_le hs hn)

/-! ## Sets of strings -/

theorem strSet_mem_Add (s : StrSet) (x y : String) :
    y ∈ (s.Add x).items ↔ y ∈ s.items ∨ y = x := by
  unfold StrSet.Add
  by_cases h : x ∈ s.items
  · rw [dif_pos h]
    constructor
    · intro hy; exact Or.inl hy
    · intro hy
      rcases hy with hy | hy
      · exact hy
      · rw [hy]; exact h
  · rw [dif_neg h]
    simp [List.mem_append]

theorem strSet_mem_foldl_Add {α : Type} (f : α → String) (l : List α) (s : StrSet)
    (y : String) :
    y ∈ (l.foldl (fun st a => st.Add (f a)) s).items ↔ y ∈ s.items ∨ y ∈ l.map f := by
  induction l generalizing s with
  | nil => simp
  | cons a as ih =>
    rw [List.foldl_cons, ih, strSet_mem_Add, List.map_cons, List.mem_cons]
    tauto

theorem mem_baseClasspath (classpath : Option StrSet) (kit : IntegrationKit) (p : String) :
    p ∈ (classpathTrait.baseClasspath classpath kit).items ↔
      ((∃ s, classpath = some s ∧ p ∈ s.items) ∨
        p = "/etc/camel/resources" ∨ p = "./resources" ∨
        p ∈ kit.Artifacts.map Artifact.Target ∨
        (p = "/deployments/dependencies/*" ∧
          mapIndex kit.Labels "camel.apache.org/kit.type" = IntegrationKitTypeExternal)) := by
  unfold classpathTrait.baseClasspath
  by_cases hx : mapIndex kit.Labels "camel.apache.org/kit.type" = IntegrationKitTypeExternal
  · cases classpath with
    | none =>
      simp only [hx, beq_self_eq_true, if_true, strSet_mem_Add, strSet_mem_foldl_Add, StrSet.New,
        List.not_mem_nil, false_or, reduceCtorEq, false_and, exists_false, and_true]
      tauto
    | some s =>
      simp only [hx, beq_self_eq_true, if_true, strSet_mem_Add, strSet_mem_foldl_Add,
        Option.some.injEq, exists_eq_left', and_true]
      tauto
  · have hb : (mapIndex kit.Labels "camel.apache.org/kit.type" == IntegrationKitTypeExternal)
        = false := by simpa using hx
    cases classpath with
    | none =>
      simp only [hb, hx, Bool.false_eq_true, if_false, strSet_mem_Add, strSet_mem_foldl_Add,
        StrSet.New, List.not_mem_nil, false_or, reduceCtorEq, false_and, exists_false, and_false,
        or_false]
      tauto
    | some s =>
      simp only [hb, hx, Bool.false_eq_true, if_false, strSet_mem_Add, strSet_mem_foldl_Add,
        Option.some.injEq, exists_eq_left', and_false, or_false]
      tauto

/-! ## Loops over slices -/

theorem mapAccum_of_state_kept {σ α : Type} (f : σ → α → σ × α)
    (h : ∀ s x, (f s x).1 = s) (s : σ) (xs : List α) :
    mapAccum f s xs = (s, xs.map (fun x => (f s x).2)) := by
  induction xs with
  | nil => rfl
  | cons x xs ih =>
    simp only [mapAccum, h, ih, List.map_cons]

theorem mapAccum_getElem_kept {σ α : Type} (f : σ → α → σ × α) (x : α)
    (h : ∀ s, (f s x).2 = x) (xs : List α) (s : σ) (i : Nat) (hi : xs[i]? = some x) :
    (mapAccum f s xs).2[i]? = some x := by
  induction xs generalizing s i with
  | nil => simp at hi
  | cons y ys ih =>
    cases i with
    | zero =>
      simp only [List.getElem?_cons_zero, Option.some.injEq] at hi
      subst hi
      simp [mapAccum, h]
    | succ n =>
      simp only [List.getElem?_cons_succ] at hi
      simp only [mapAccum, List.getElem?_cons_succ]
      exact ih _ n hi

/-! ## Environment variables -/

theorem envvarGet_envvarSetVal (vars : List EnvVar) (name value : String) :
    (envvarGet (envvarSetVal vars name value) name).map (fun v => v.Value) = some value := by
  induction vars with
  | nil => simp [envvarSetVal, envvarGet]
  | cons v rest ih =>
    unfold envvarSetVal
    by_cases h : (v.Name == name) = true
    · rw [if_pos h]
      simp [envvarGet, List.find?, h]
    · rw [if_neg h]
      unfold envvarGet at ih ⊢
      rw [List.find?_cons]
      simp only [Bool.not_eq_true] at h
      simp only [h]
      exact ih

/-! ## The classpath trait: what `Apply` does to deployments -/

theorem deploymentVisitor_eq (cp : StrSet) (d : Deployment) :
    classpathTrait.deploymentVisitor cp d =
      (cp, { d with Containers := d.Containers.map (withJavaClasspath cp) }) := by
  unfold classpathTrait.deploymentVisitor
  rw [mapAccum_of_state_kept _ (fun _ _ => rfl)]
  rfl

theorem visitDeployment_eq (cp : StrSet) (rs : Collection) :
    Collection.VisitDeployment rs cp classpathTrait.deploymentVisitor =
      (cp, rs.map (fun r =>
        match r with
        | Resource.deployment d =>
          Resource.deployment { d with Containers := d.Containers.map (withJavaClasspath cp) }
        | other => other)) := by
  unfold Collection.VisitDeployment
  rw [mapAccum_of_state_kept]
  · congr 1
    apply List.map_congr_left
    intro r _
    cases r <;> simp [deploymentVisitor_eq]
  · intro s r
    cases r <;> simp [deploymentVisitor_eq]

theorem visitKnativeService_deployment_kept {σ : Type} (rs : Collection) (s : σ)
    (visitor : σ → KnativeService → σ × KnativeService) (i : Nat) (d : Deployment)
    (h : rs[i]? = some (Resource.deployment d)) :
    (Collection.VisitKnativeService rs s visitor).2[i]? = some (Resource.deployment d) := by
  unfold Collection.VisitKnativeService
  exact mapAccum_getElem_kept _ _ (fun _ => rfl) rs s i h

theorem classpath_resolveKit_of_ok (t : classpathTrait) (e : Environment)
    (h : (t.Apply e).err = none) : ∃ kit, t.resolveKit e = Except.ok kit := by
  unfold classpathTrait.Apply at h
  cases hk : t.resolveKit e with
  | error msg => rw [hk] at h; simp at h
  | ok kit => exact ⟨kit, rfl⟩

theorem withJavaClasspath_value (cp : StrSet) (c : Container) :
    ∃ items : List String,
      (withJavaClasspath cp c).javaClasspath = some (stringsJoin items ":") ∧
      items.Sorted (· < ·) ∧
      ∀ p, p ∈ items ↔ (p ∈ cp.items ∨ p ∈ c.VolumeMounts.map VolumeMount.MountPath) := by
  refine ⟨sortStrings (c.VolumeMounts.foldl (fun s m => s.Add m.MountPath) cp.Copy).List,
    ?_, ?_, ?_⟩
  · unfold Container.javaClasspath withJavaClasspath classpathTrait.setJavaClasspath
    exact envvarGet_envvarSetVal _ _ _
  · exact sortStrings_sorted_lt _ (StrSet.nodup _)
  · intro p
    rw [sortStrings_mem]
    unfold StrSet.List StrSet.Copy
    exact strSet_mem_foldl_Add VolumeMount.MountPath c.VolumeMounts cp p

theorem classpath_apply_deployment_container (t : classpathTrait) (e : Environment)
    (kit : IntegrationKit) (rs0 : Collection) (i : Nat) (d0 : Deployment) (j : Nat)
    (c0 : Container)
    (hkit : t.resolveKit e = Except.ok kit)
    (hrs : e.Resources = some rs0)
    (hd : rs0[i]? = some (Resource.deployment d0))
    (hc : d0.Containers[j]? = some c0) :
    ∃ rs d,
      (t.Apply e).env.Resources = some rs ∧
      rs[i]? = some (Resource.deployment d) ∧
      d.Containers[j]? =
        some (withJavaClasspath (classpathTrait.baseClasspath e.Classpath kit) c0) := by
  refine ⟨(Collection.VisitKnativeService
      (Collection.VisitDeployment rs0 (classpathTrait.baseClasspath e.Classpath kit)
        classpathTrait.deploymentVisitor).2
      (Collection.VisitDeployment rs0 (classpathTrait.baseClasspath e.Classpath kit)
        classpathTrait.deploymentVisitor).1 classpathTrait.knativeServiceVisitor).2,
    Deployment.mk d0.Name (d0.Containers.map
      (withJavaClasspath (classpathTrait.baseClasspath e.Classpath kit))), ?_, ?_, ?_⟩
  · unfold classpathTrait.Apply
    rw [hkit, hrs]
  · apply visitKnativeService_deployment_kept
    rw [visitDeployment_eq]
    simp only [List.getElem?_map, hd, Option.map_some']
  · simp only [List.getElem?_map, hc, Option.map_some']

/-- C1: after a successful classpath `Apply`, every container of every
deployment of the Resource Collection carries a `JAVA_CLASSPATH` value that is
the colon-join of a strictly ascending list of paths, whose elements are the
paths of the environment classpath (after the base, artifact-target and
wildcard entries were added) and the mount paths of that container. -/
theorem classpath_apply_deployment_java_classpath (t : classpathTrait) (e : Environment)
    (rs0 : Collection) (i : Nat) (d0 : Deployment) (j : Nat) (c0 : Container)
    (hok : (t.Apply e).err = none)
    (hrs : e.Resources = some rs0)
    (hd : rs0[i]? = some (Resource.deployment d0))
    (hc : d0.Containers[j]? = some c0) :
    ∃ kit rs d c items,
      t.resolveKit e = Except.ok kit ∧
      (t.Apply e).env.Resources = some rs ∧
      rs[i]? = some (Resource.deployment d) ∧
      d.Containers[j]? = some c ∧
      c.VolumeMounts = c0.VolumeMounts ∧
      c.javaClasspath = some (stringsJoin items ":") ∧
      items.Sorted (· < ·) ∧
      ∀ p, p ∈ items ↔
        (p ∈ (classpathTrait.baseClasspath e.Classpath kit).items ∨
          p ∈ c0.VolumeMounts.map VolumeMount.MountPath) := by
  obtain ⟨kit, hkit⟩ := classpath_resolveKit_of_ok t e hok
  obtain ⟨items, hval, hsorted, hmem⟩ :=
    withJavaClasspath_value (classpathTrait.baseClasspath e.Classpath kit) c0
  obtain ⟨rs, d, h1, h2, h3⟩ :=
    classpath_apply_deployment_container t e kit rs0 i d0 j c0 hkit hrs hd hc
  exact ⟨kit, rs, d, withJavaClasspath (classpathTrait.baseClasspath e.Classpath kit) c0,
    items, hkit, h1, h2, h3, rfl, hval, hsorted, hmem⟩

/-- Witness of C1 on the sample environment. -/
theorem classpath_apply_deployment_java_classpath_witness :
    (sampleClasspathTrait.Apply sampleEnv).err = none ∧
    sampleEnv.Resources = some [Resource.deployment sampleDeployment] ∧
    [Resource.deployment sampleDeployment][0]? = some (Resource.deployment sampleDeployment) ∧
    sampleDeployment.Containers[0]? = some sampleContainer ∧
    ∃ kit rs d c items,
      sampleClasspathTrait.resolveKit sampleEnv = Except.ok kit ∧
      (sampleClasspathTrait.Apply sampleEnv).env.Resources = some rs ∧
      rs[0]? = some (Resource.deployment d) ∧
      d.Containers[0]? = some c ∧
      c.VolumeMounts = sampleContainer.VolumeMounts ∧
      c.javaClasspath = some (stringsJoin items ":") ∧
      items.Sorted (· < ·) ∧
      ∀ p, p ∈ items ↔
        (p ∈ (classpathTrait.baseClasspath sampleEnv.Classpath kit).items ∨
          p ∈ sampleContainer.VolumeMounts.map VolumeMount.MountPath) :=
  ⟨by decide, by decide, by decide, by decide,
    classpath_apply_deployment_java_classpath sampleClasspathTrait sampleEnv
      [Resource.deployment sampleDeployment] 0 sampleDeployment 0 sampleContainer
      (by decide) (by decide) (by decide) (by decide)⟩

/-- C2, evaluation at the failing input: on a Knative service whose first
container mounts `/a` and whose second container mounts `/b`, `Apply` writes
`/a` into the `JAVA_CLASSPATH` of the second container, and leaves both mount
paths in the environment classpath. -/
theorem classpath_apply_knative_service_shares_mount_paths :
    (sampleClasspathTrait.Apply sampleKnativeEnv).env.Resources =
      some [Resource.knativeService
        { Name := "test"
          Containers :=
            [{ Name := "first"
               Env := [{ Name := "JAVA_CLASSPATH", Value := "./resources:/a:/etc/camel/resources" }]
               VolumeMounts := [{ Name := "a", MountPath := "/a" }] },
             { Name := "second"
               Env := [{ Name := "JAVA_CLASSPATH",
                         Value := "./resources:/a:/b:/etc/camel/resources" }]
               VolumeMounts := [{ Name := "b", MountPath := "/b" }] }] }] ∧
    (sampleClasspathTrait.Apply sampleKnativeEnv).env.Classpath.map StrSet.List =
      some ["/etc/camel/resources", "./resources", "/a", "/b"] := by
  decide

theorem mapAccum_fst_of_kept {σ α : Type} (f : σ → α → σ × α) (xs : List α)
    (h : ∀ s x, x ∈ xs → (f s x).1 = s) (s : σ) :
    (mapAccum f s xs).1 = s := by
  induction xs generalizing s with
  | nil => rfl
  | cons x xs ih =>
    simp only [mapAccum]
    rw [h s x (List.mem_cons_self x xs)]
    exact ih (fun s y hy => h s y (List.mem_cons_of_mem x hy)) s

theorem visitDeployment_knativeService_mem (cp : StrSet) (rs : Collection)
    (k : KnativeService)
    (h : Resource.knativeService k ∈
      (Collection.VisitDeployment rs cp classpathTrait.deploymentVisitor).2) :
    Resource.knativeService k ∈ rs := by
  rw [visitDeployment_eq] at h
  simp only [List.mem_map] at h
  obtain ⟨r, hr, hrk⟩ := h
  cases r with
  | deployment d => simp at hrk
  | knativeService s => simp only at hrk; rw [← hrk]; exact hr
  | service s => simp at hrk
  | other kind name => simp at hrk

theorem visitKnativeService_classpath_kept (rs : Collection) (cp : StrSet)
    (h : ∀ k, Resource.knativeService k ∉ rs) :
    (Collection.VisitKnativeService rs cp classpathTrait.knativeServiceVisitor).1 = cp := by
  unfold Collection.VisitKnativeService
  apply mapAccum_fst_of_kept
  intro s r hr
  cases r with
  | knativeService k => exact absurd hr (h k)
  | deployment d => rfl
  | service s => rfl
  | other kind name => rfl

theorem classpath_resolveKit_of_kit (t : classpathTrait) (e : Environment)
    (kit : IntegrationKit)
    (hkit : e.IntegrationKit = some kit ∨
      (e.IntegrationKit = none ∧ e.Integration.Kit ≠ "" ∧
        t.client e.Integration.Namespace e.Integration.Kit = Except.ok kit)) :
    t.resolveKit e = Except.ok kit := by
  unfold classpathTrait.resolveKit
  rcases hkit with h | ⟨h1, h2, h3⟩
  · rw [h]
  · rw [h1]
    have hb : (e.Integration.Kit != "") = true := by simpa using h2
    simp only [hb, if_true]
    rw [h3]

/-- C3: for every kit, be it the kit held by the environment or, when the
environment holds none, the kit fetched under the name of the Integration
status, classpath `Apply` on an empty environment classpath and a Resource
Collection without service-shaped objects succeeds and leaves an environment
classpath that holds exactly `/etc/camel/resources`, `./resources`, the Target
of every artifact of that kit, and `/deployments/dependencies/*` when, and
only when, that kit is labelled as an external kit. -/
theorem classpath_apply_environment_classpath (t : classpathTrait) (e : Environment)
    (kit : IntegrationKit)
    (hkit : e.IntegrationKit = some kit ∨
      (e.IntegrationKit = none ∧ e.Integration.Kit ≠ "" ∧
        t.client e.Integration.Namespace e.Integration.Kit = Except.ok kit))
    (hempty : ∀ s, e.Classpath = some s → s.items = [])
    (hplain : ∀ rs k, e.Resources = some rs → Resource.knativeService k ∉ rs) :
    (t.Apply e).err = none ∧
    ∃ cp,
      (t.Apply e).env.Classpath = some cp ∧
      ∀ p, p ∈ cp.items ↔
        (p = "/etc/camel/resources" ∨ p = "./resources" ∨
          (∃ artifact, artifact ∈ kit.Artifacts ∧ artifact.Target = p) ∨
          (p = "/deployments/dependencies/*" ∧
            mapIndex kit.Labels "camel.apache.org/kit.type" = IntegrationKitTypeExternal)) := by
  have hres : t.resolveKit e = Except.ok kit := classpath_resolveKit_of_kit t e kit hkit
  have hbase : ∀ p, p ∈ (classpathTrait.baseClasspath e.Classpath kit).items ↔
      (p = "/etc/camel/resources" ∨ p = "./resources" ∨
        (∃ artifact, artifact ∈ kit.Artifacts ∧ artifact.Target = p) ∨
        (p = "/deployments/dependencies/*" ∧
          mapIndex kit.Labels "camel.apache.org/kit.type" = IntegrationKitTypeExternal)) := by
    intro p
    rw [mem_baseClasspath, List.mem_map]
    constructor
    · intro h
      rcases h with ⟨s, hs, hp⟩ | h
      · rw [hempty s hs] at hp
        exact absurd hp (List.not_mem_nil p)
      · exact h
    · intro h
      exact Or.inr h
  unfold classpathTrait.Apply
  rw [hres]
  cases hrs : e.Resources with
  | none => exact ⟨rfl, _, rfl, hbase⟩
  | some rs =>
    refine ⟨rfl, _, rfl, ?_⟩
    rw [visitKnativeService_classpath_kept]
    · rw [visitDeployment_eq]
      exact hbase
    · intro k hk
      exact hplain rs k hrs (visitDeployment_knativeService_mem _ _ k hk)

/-- Witness of C3 on the sample environment with the externally built kit:
the classpath holds the target of its artifact and the wildcard entry. -/
theorem classpath_apply_environment_classpath_witness :
    (sampleExternalEnv.IntegrationKit = some sampleExternalKit ∨
      (sampleExternalEnv.IntegrationKit = none ∧ sampleExternalEnv.Integration.Kit ≠ "" ∧
        sampleClasspathTrait.client sampleExternalEnv.Integration.Namespace
          sampleExternalEnv.Integration.Kit = Except.ok sampleExternalKit)) ∧
    (∀ s, sampleExternalEnv.Classpath = some s → s.items = []) ∧
    (∀ rs k, sampleExternalEnv.Resources = some rs → Resource.knativeService k ∉ rs) ∧
    (sampleClasspathTrait.Apply sampleExternalEnv).env.Classpath.map StrSet.List =
      some ["/etc/camel/resources", "./resources", "lib/lib.jar",
        "/deployments/dependencies/*"] ∧
    (sampleClasspathTrait.Apply sampleExternalEnv).err = none ∧
    ∃ cp,
      (sampleClasspathTrait.Apply sampleExternalEnv).env.Classpath = some cp ∧
      ∀ p, p ∈ cp.items ↔
        (p = "/etc/camel/resources" ∨ p = "./resources" ∨
          (∃ artifact, artifact ∈ sampleExternalKit.Artifacts ∧ artifact.Target = p) ∨
          (p = "/deployments/dependencies/*" ∧
            mapIndex sampleExternalKit.Labels "camel.apache.org/kit.type" =
              IntegrationKitTypeExternal)) :=
  have h1 : ∀ s, sampleExternalEnv.Classpath = some s → s.items = [] := by
    intro s hs
    simp [sampleExternalEnv, sampleEnv] at hs
  have h2 : ∀ rs k, sampleExternalEnv.Resources = some rs →
      Resource.knativeService k ∉ rs := by
    intro rs k hrs
    simp only [sampleExternalEnv, sampleEnv, Option.some.injEq] at hrs
    rw [← hrs]
    simp
  ⟨Or.inl rfl, h1, h2, by decide,
    classpath_apply_environment_classpath sampleClasspathTrait sampleExternalEnv
      sampleExternalKit (Or.inl rfl) h1 h2⟩

/-- C4: classpath `Configure` returns no error; it answers enabled only when
the kit is in the ready phase and the Integration in the deploying phase; and
it answers not enabled when the trait is explicitly disabled. -/
theorem classpath_configure_gating (t : classpathTrait) (e : Environment) :
    (t.Configure e).err = none ∧
    ((t.Configure e).enabled = true →
      (∃ kit, e.IntegrationKit = some kit ∧ kit.Phase = IntegrationKitPhaseReady) ∧
      e.Integration.Phase = IntegrationPhaseDeploying) ∧
    (t.Enabled = some false → (t.Configure e).enabled = false) := by
  have hphase : e.InPhase IntegrationKitPhaseReady IntegrationPhaseDeploying = true →
      (∃ kit, e.IntegrationKit = some kit ∧ kit.Phase = IntegrationKitPhaseReady) ∧
      e.Integration.Phase = IntegrationPhaseDeploying := by
    intro h
    unfold Environment.InPhase Environment.IntegrationKitInPhase
      Environment.IntegrationInPhase at h
    cases hk : e.IntegrationKit with
    | none => rw [hk] at h; simp at h
    | some kit =>
      rw [hk] at h
      simp only [List.any_cons, List.any_nil, Bool.or_false, Bool.and_eq_true,
        beq_iff_eq] at h
      exact ⟨⟨kit, rfl, h.1⟩, h.2⟩
  unfold classpathTrait.Configure
  refine ⟨?_, ?_, ?_⟩
  · split <;> rfl
  · split
    · intro h; simp at h
    · exact hphase
  · intro h
    rw [h]

theorem sorted_lt_unique (xs ys : List String) (hx : xs.Sorted (· < ·))
    (hy : ys.Sorted (· < ·)) (h : ∀ p, p ∈ xs ↔ p ∈ ys) : xs = ys :=
  List.eq_of_perm_of_sorted ((List.perm_ext_iff_of_nodup hx.nodup hy.nodup).2 h) hx hy

theorem four_paths_sorted :
    ["./resources", "/a", "/b", "/etc/camel/resources"].Sorted (fun a b : String => a < b) := by
  have h1 : ("./resources" : String) < "/a" := (strLt_iff _ _).1 (by decide)
  have h2 : ("/a" : String) < "/b" := (strLt_iff _ _).1 (by decide)
  have h3 : ("/b" : String) < "/etc/camel/resources" := (strLt_iff _ _).1 (by decide)
  have h12 := lt_trans h1 h2
  have h13 := lt_trans h12 h3
  have h23 := lt_trans h2 h3
  refine List.Pairwise.cons ?_ (List.Pairwise.cons ?_ (List.Pairwise.cons ?_
    (List.pairwise_singleton _ _)))
  · intro p hp
    simp only [List.mem_cons, List.mem_singleton, List.not_mem_nil, or_false] at hp
    rcases hp with hp | hp | hp <;> rw [hp] <;> assumption
  · intro p hp
    simp only [List.mem_cons, List.mem_singleton, List.not_mem_nil, or_false] at hp
    rcases hp with hp | hp <;> rw [hp] <;> assumption
  · intro p hp
    simp only [List.mem_cons, List.mem_singleton, List.not_mem_nil, or_false] at hp
    rw [hp]; assumption

/-- C5, as stated, fails: on the sample environment (kit without artifacts, not
external; one container mounting `/a` and `/b`) the value written by `Apply`
is the sorted colon-join itself, not `.` followed by it. -/
theorem classpath_apply_value_is_not_dot_prefixed :
    (sampleClasspathTrait.Apply sampleEnv).env.Resources =
      some [Resource.deployment
        { Name := "test"
          Containers :=
            [{ Name := "integration"
               Env := [{ Name := "JAVA_CLASSPATH",
                         Value := "./resources:/a:/b:/etc/camel/resources" }]
               VolumeMounts :=
                 [{ Name := "a", MountPath := "/a" }, { Name := "b", MountPath := "/b" }] }] }] ∧
    stringsJoin (sortStrings ["/a", "/b", "/etc/camel/resources", "./resources"]) ":" =
      "./resources:/a:/b:/etc/camel/resources" ∧
    "./resources:/a:/b:/etc/camel/resources" ≠
      "." ++ stringsJoin (sortStrings ["/a", "/b", "/etc/camel/resources", "./resources"]) ":" := by
  decide

/-- C5, amended: for a deployment container whose mount paths are `/a` and
`/b`, a kit without artifacts that is not external and an empty environment
classpath, the `JAVA_CLASSPATH` value written by a successful `Apply` is
exactly the sorted colon-join of the four paths,
`./resources:/a:/b:/etc/camel/resources`. -/
theorem classpath_apply_four_paths (t : classpathTrait) (e : Environment)
    (rs0 : Collection) (i : Nat) (d0 : Deployment) (j : Nat) (c0 : Container)
    (hok : (t.Apply e).err = none)
    (hrs : e.Resources = some rs0)
    (hd : rs0[i]? = some (Resource.deployment d0))
    (hc : d0.Containers[j]? = some c0)
    (hempty : ∀ s, e.Classpath = some s → s.items = [])
    (hkit : ∀ kit, t.resolveKit e = Except.ok kit →
      kit.Artifacts = [] ∧
      mapIndex kit.Labels "camel.apache.org/kit.type" ≠ IntegrationKitTypeExternal)
    (hmounts : ∀ p, p ∈ c0.VolumeMounts.map VolumeMount.MountPath ↔ (p = "/a" ∨ p = "/b")) :
    ∃ rs d c,
      (t.Apply e).env.Resources = some rs ∧
      rs[i]? = some (Resource.deployment d) ∧
      d.Containers[j]? = some c ∧
      c.javaClasspath = some "./resources:/a:/b:/etc/camel/resources" := by
  obtain ⟨kit, hk⟩ := classpath_resolveKit_of_ok t e hok
  obtain ⟨items, hval, hsorted, hmem⟩ :=
    withJavaClasspath_value (classpathTrait.baseClasspath e.Classpath kit) c0
  obtain ⟨rs, d, h1, h2, h3⟩ :=
    classpath_apply_deployment_container t e kit rs0 i d0 j c0 hk hrs hd hc
  refine ⟨rs, d, _, h1, h2, h3, ?_⟩
  obtain ⟨hart, hext⟩ := hkit kit hk
  have hitems : items = ["./resources", "/a", "/b", "/etc/camel/resources"] := by
    apply sorted_lt_unique items _ hsorted four_paths_sorted
    intro p
    rw [hmem, mem_baseClasspath, hmounts, hart]
    simp only [List.map_nil, List.not_mem_nil, false_or, hext, and_false, or_false,
      List.mem_cons, List.mem_singleton]
    constructor
    · intro h
      rcases h with (⟨s, hs, hp⟩ | h | h) | h | h
      · rw [hempty s hs] at hp
        exact absurd hp (List.not_mem_nil p)
      · exact Or.inr (Or.inr (Or.inr h))
      · exact Or.inl h
      · exact Or.inr (Or.inl h)
      · exact Or.inr (Or.inr (Or.inl h))
    · intro h
      rcases h with h | h | h | h
      · exact Or.inl (Or.inr (Or.inr h))
      · exact Or.inr (Or.inl h)
      · exact Or.inr (Or.inr h)
      · exact Or.inl (Or.inr (Or.inl h))
  rw [hval, hitems]
  decide

theorem sampleEnv_resolveKit (kit : IntegrationKit)
    (h : sampleClasspathTrait.resolveKit sampleEnv = Except.ok kit) : kit = sampleKit := by
  have h0 : sampleClasspathTrait.resolveKit sampleEnv = Except.ok sampleKit := rfl
  rw [h0] at h
  exact (Except.ok.inj h).symm

/-- Witness of the amended C5 on the sample environment. -/
theorem classpath_apply_four_paths_witness :
    (sampleClasspathTrait.Apply sampleEnv).err = none ∧
    sampleEnv.Resources = some [Resource.deployment sampleDeployment] ∧
    [Resource.deployment sampleDeployment][0]? = some (Resource.deployment sampleDeployment) ∧
    sampleDeployment.Containers[0]? = some sampleContainer ∧
    (∀ s, sampleEnv.Classpath = some s → s.items = []) ∧
    (∀ kit, sampleClasspathTrait.resolveKit sampleEnv = Except.ok kit →
      kit.Artifacts = [] ∧
      mapIndex kit.Labels "camel.apache.org/kit.type" ≠ IntegrationKitTypeExternal) ∧
    (∀ p, p ∈ sampleContainer.VolumeMounts.map VolumeMount.MountPath ↔ (p = "/a" ∨ p = "/b")) ∧
    ∃ rs d c,
      (sampleClasspathTrait.Apply sampleEnv).env.Resources = some rs ∧
      rs[0]? = some (Resource.deployment d) ∧
      d.Containers[0]? = some c ∧
      c.javaClasspath = some "./resources:/a:/b:/etc/camel/resources" :=
  have h1 : ∀ s, sampleEnv.Classpath = some s → s.items = [] := by
    intro s hs
    simp [sampleEnv] at hs
  have h2 : ∀ kit, sampleClasspathTrait.resolveKit sampleEnv = Except.ok kit →
      kit.Artifacts = [] ∧
      mapIndex kit.Labels "camel.apache.org/kit.type" ≠ IntegrationKitTypeExternal := by
    intro kit hk
    rw [sampleEnv_resolveKit kit hk]
    decide
  have h3 : ∀ p, p ∈ sampleContainer.VolumeMounts.map VolumeMount.MountPath ↔
      (p = "/a" ∨ p = "/b") := by
    intro p
    simp [sampleContainer]
  ⟨by decide, by decide, by decide, by decide, h1, h2, h3,
    classpath_apply_four_paths sampleClasspathTrait sampleEnv
      [Resource.deployment sampleDeployment] 0 sampleDeployment 0 sampleContainer
      (by decide) (by decide) (by decide) (by decide) h1 h2 h3⟩

/-- C6: when the environment holds no kit and the Integration status names no
kit, or the named kit cannot be fetched, classpath `Apply` returns an error and
leaves the environment, its classpath and its Resource Collection included, as
it found it. -/
theorem classpath_apply_missing_kit (t : classpathTrait) (e : Environment)
    (hnil : e.IntegrationKit = none)
    (hname : e.Integration.Kit = "" ∨
      ∃ err, t.client e.Integration.Namespace e.Integration.Kit = Except.error err) :
    (∃ msg, (t.Apply e).err = some msg) ∧
    (t.Apply e).env.Classpath = e.Classpath ∧
    (t.Apply e).env.Resources = e.Resources ∧
    (t.Apply e).env = e := by
  have hres : ∃ msg, t.resolveKit e = Except.error msg := by
    unfold classpathTrait.resolveKit
    rw [hnil]
    by_cases hk : e.Integration.Kit = ""
    · simp [hk]
    · rcases hname with h | ⟨err, herr⟩
      · exact absurd h hk
      · simp [hk, herr]
  obtain ⟨msg, hmsg⟩ := hres
  unfold classpathTrait.Apply
  rw [hmsg]
  exact ⟨⟨msg, rfl⟩, rfl, rfl, rfl⟩

/-- Witness of C6 on the sample environment without a kit. -/
theorem classpath_apply_missing_kit_witness :
    sampleKitlessEnv.IntegrationKit = none ∧
    (sampleKitlessEnv.Integration.Kit = "" ∨
      ∃ err, sampleClasspathTrait.client sampleKitlessEnv.Integration.Namespace
        sampleKitlessEnv.Integration.Kit = Except.error err) ∧
    (∃ msg, (sampleClasspathTrait.Apply sampleKitlessEnv).err = some msg) ∧
    (sampleClasspathTrait.Apply sampleKitlessEnv).env.Classpath = sampleKitlessEnv.Classpath ∧
    (sampleClasspathTrait.Apply sampleKitlessEnv).env.Resources = sampleKitlessEnv.Resources ∧
    (sampleClasspathTrait.Apply sampleKitlessEnv).env = sampleKitlessEnv :=
  ⟨rfl, Or.inl rfl,
    classpath_apply_missing_kit sampleClasspathTrait sampleKitlessEnv rfl (Or.inl rfl)⟩

/-! ## The service trait -/

theorem getCondition_setCondition (i : Integration) (condType status reason message : String) :
    (i.SetCondition condType status reason message).GetCondition condType =
      some { CondType := condType, Status := status, Reason := reason, Message := message } := by
  unfold Integration.GetCondition Integration.SetCondition
  simp only [List.find?_append]
  have hnone : List.find? (fun c => c.CondType == condType)
      (List.filter (fun c => c.CondType != condType) i.Conditions) = none := by
    rw [List.find?_eq_none]
    intro c hc
    rw [List.mem_filter] at hc
    simpa using hc.2
  rw [hnone]
  simp

/-- C7: when the service trait is explicitly disabled, `Configure` returns
(false, no error), whatever the phase, the `auto` option and the
collaborators that would resolve and inspect the sources, and it records the
ServiceAvailable condition as False with the service-not-available reason and
the message "explicitly disabled". -/
theorem service_configure_explicitly_disabled (t : serviceTrait)
    (ResolveIntegrationSources :
      Integration → Option Collection → Except String (List SourceSpec))
    (ExtractAll : RuntimeCatalog → List SourceSpec → IntegrationMetadata)
    (e : Environment) (hoff : t.Enabled = some false) :
    t.Configure ResolveIntegrationSources ExtractAll e =
      { env :=
          { e with
            Integration := e.Integration.SetCondition IntegrationConditionServiceAvailable
              ConditionFalse IntegrationConditionServiceNotAvailableReason "explicitly disabled" }
        enabled := false
        err := none } ∧
    (t.Configure ResolveIntegrationSources ExtractAll e).enabled = false ∧
    (t.Configure ResolveIntegrationSources ExtractAll e).err = none ∧
    (t.Configure ResolveIntegrationSources ExtractAll e).env.Integration.GetCondition
        IntegrationConditionServiceAvailable =
      some { CondType := IntegrationConditionServiceAvailable
             Status := ConditionFalse
             Reason := IntegrationConditionServiceNotAvailableReason
             Message := "explicitly disabled" } := by
  have h : t.Configure ResolveIntegrationSources ExtractAll e =
      { env :=
          { e with
            Integration := e.Integration.SetCondition IntegrationConditionServiceAvailable
              ConditionFalse IntegrationConditionServiceNotAvailableReason "explicitly disabled" }
        enabled := false
        err := none } := by
    unfold serviceTrait.Configure serviceTrait.isEnabled
    rw [hoff]
    rfl
  rw [h]
  exact ⟨rfl, rfl, rfl, getCondition_setCondition _ _ _ _ _⟩

/-- Witness of C7 on the web environment, whose sources would require a
service. -/
theorem service_configure_explicitly_disabled_witness :
    sampleDisabledServiceTrait.Enabled = some false ∧
    (sampleDisabledServiceTrait.Configure sampleResolveSources sampleExtractAll sampleWebEnv =
      { env :=
          { sampleWebEnv with
            Integration := sampleWebEnv.Integration.SetCondition
              IntegrationConditionServiceAvailable ConditionFalse
              IntegrationConditionServiceNotAvailableReason "explicitly disabled" }
        enabled := false
        err := none } ∧
    (sampleDisabledServiceTrait.Configure sampleResolveSources sampleExtractAll
      sampleWebEnv).enabled = false ∧
    (sampleDisabledServiceTrait.Configure sampleResolveSources sampleExtractAll
      sampleWebEnv).err = none ∧
    (sampleDisabledServiceTrait.Configure sampleResolveSources sampleExtractAll
      sampleWebEnv).env.Integration.GetCondition IntegrationConditionServiceAvailable =
      some { CondType := IntegrationConditionServiceAvailable
             Status := ConditionFalse
             Reason := IntegrationConditionServiceNotAvailableReason
             Message := "explicitly disabled" }) :=
  ⟨rfl, service_configure_explicitly_disabled sampleDisabledServiceTrait sampleResolveSources
    sampleExtractAll sampleWebEnv rfl⟩

/-- C8: for an Integration that is deploying or running, a service trait that
is not explicitly disabled, auto-detection on and sources that resolve,
`Configure` answers enabled exactly when the extracted metadata requires an
HTTP service, with no error; when it does not, the ServiceAvailable condition
is recorded as False with the message "no http service required". -/
theorem service_configure_auto_detection (t : serviceTrait)
    (ResolveIntegrationSources :
      Integration → Option Collection → Except String (List SourceSpec))
    (ExtractAll : RuntimeCatalog → List SourceSpec → IntegrationMetadata)
    (e : Environment) (sources : List SourceSpec)
    (hphase : e.Integration.Phase = IntegrationPhaseDeploying ∨
      e.Integration.Phase = IntegrationPhaseRunning)
    (hon : t.Enabled ≠ some false)
    (hauto : t.Auto = none ∨ t.Auto = some true)
    (hsources : ResolveIntegrationSources e.Integration e.Resources = Except.ok sources) :
    ((t.Configure ResolveIntegrationSources ExtractAll e).enabled = true ↔
      (ExtractAll e.CamelCatalog sources).RequiresHTTPService = true) ∧
    (t.Configure ResolveIntegrationSources ExtractAll e).err = none ∧
    ((ExtractAll e.CamelCatalog sources).RequiresHTTPService = false →
      (t.Configure ResolveIntegrationSources ExtractAll e).enabled = false ∧
      (t.Configure ResolveIntegrationSources ExtractAll e).env.Integration.GetCondition
          IntegrationConditionServiceAvailable =
        some { CondType := IntegrationConditionServiceAvailable
               Status := ConditionFalse
               Reason := IntegrationConditionServiceNotAvailableReason
               Message := "no http service required" }) := by
  have hen : t.isEnabled = true := by
    unfold serviceTrait.isEnabled
    cases hE : t.Enabled with
    | none => rfl
    | some b =>
      cases b with
      | true => rfl
      | false => exact absurd hE hon
  have hph : e.IntegrationInPhase [IntegrationPhaseDeploying, IntegrationPhaseRunning] = true := by
    unfold Environment.IntegrationInPhase
    simp only [List.any_cons, List.any_nil, Bool.or_false, Bool.or_eq_true, beq_iff_eq]
    exact hphase
  have hcfg : t.Configure ResolveIntegrationSources ExtractAll e =
      if !(ExtractAll e.CamelCatalog sources).RequiresHTTPService then
        { env :=
            { e with
              Integration := e.Integration.SetCondition IntegrationConditionServiceAvailable
                ConditionFalse IntegrationConditionServiceNotAvailableReason
                "no http service required" }
          enabled := false
          err := none }
      else { env := e, enabled := true, err := none } := by
    unfold serviceTrait.Configure
    simp only [hen, hph, Bool.not_true, Bool.false_eq_true, if_false]
    rcases hauto with ha | ha <;> rw [ha] <;> simp only [hsources]
  rw [hcfg]
  cases hreq : (ExtractAll e.CamelCatalog sources).RequiresHTTPService with
  | true => simp
  | false =>
    simp only [Bool.not_false, if_true, Bool.false_eq_true, iff_self, true_and, forall_const]
    exact getCondition_setCondition _ _ _ _ _

/-- Witness of C8 on the sample environment, whose Integration has no source
that requires a service. -/
theorem service_configure_auto_detection_witness :
    (sampleEnv.Integration.Phase = IntegrationPhaseDeploying ∨
      sampleEnv.Integration.Phase = IntegrationPhaseRunning) ∧
    sampleServiceTrait.Enabled ≠ some false ∧
    (sampleServiceTrait.Auto = none ∨ sampleServiceTrait.Auto = some true) ∧
    sampleResolveSources sampleEnv.Integration sampleEnv.Resources = Except.ok [] ∧
    ((sampleServiceTrait.Configure sampleResolveSources sampleExtractAll sampleEnv).enabled = true ↔
      (sampleExtractAll sampleEnv.CamelCatalog []).RequiresHTTPService = true) ∧
    (sampleServiceTrait.Configure sampleResolveSources sampleExtractAll sampleEnv).err = none ∧
    ((sampleExtractAll sampleEnv.CamelCatalog []).RequiresHTTPService = false →
      (sampleServiceTrait.Configure sampleResolveSources sampleExtractAll sampleEnv).enabled = false ∧
      (sampleServiceTrait.Configure sampleResolveSources sampleExtractAll
        sampleEnv).env.Integration.GetCondition IntegrationConditionServiceAvailable =
        some { CondType := IntegrationConditionServiceAvailable
               Status := ConditionFalse
               Reason := IntegrationConditionServiceNotAvailableReason
               Message := "no http service required" }) :=
  ⟨Or.inl rfl, by decide, Or.inl rfl, rfl,
    service_configure_auto_detection sampleServiceTrait sampleResolveSources sampleExtractAll
      sampleEnv [] (Or.inl rfl) (by decide) (Or.inl rfl) rfl⟩

/-- C9, evaluation at the failing input: when the collection already holds
the service of the integration, `Apply` appends that service once more, and
the collection ends with two Service entries of the same name. -/
theorem service_apply_adds_found_service_again :
    Collection.GetServiceForIntegration
        [Resource.deployment sampleDeployment, Resource.service (getServiceFor sampleEnv)]
        sampleServiceEnv.Integration = some (getServiceFor sampleEnv) ∧
    (sampleServiceTrait.Apply sampleServiceEnv).map (fun r => r.env.Resources) =
      some (some [Resource.deployment sampleDeployment,
        Resource.service (getServiceFor sampleEnv),
        Resource.service (getServiceFor sampleEnv)]) ∧
    (sampleServiceTrait.Apply sampleServiceEnv).map
        (fun r => (r.env.Resources.map Collection.services).map
          (fun l => (l.filter (fun s => s.Name == "test")).length)) =
      some (some 2) := by
  decide

/-- C10: when the Resource Collection holds no service for the integration,
`Apply` appends one Service whose name and namespace are the integration's,
whose labels and whose selector are the single entry
`camel.apache.org/integration` mapped to the integration name, and whose port
list is empty. -/
theorem service_apply_creates_service (t : serviceTrait) (e : Environment)
    (resources : Collection)
    (hrs : e.Resources = some resources)
    (hnone : Collection.GetServiceForIntegration resources e.Integration = none) :
    ∃ svc,
      t.Apply e =
        some { env := { e with Resources := some (resources ++ [Resource.service svc]) }
               err := none } ∧
      svc.Kind = "Service" ∧
      svc.Name = e.Integration.Name ∧
      svc.Namespace = e.Integration.Namespace ∧
      svc.Labels = [("camel.apache.org/integration", e.Integration.Name)] ∧
      svc.Selector = [("camel.apache.org/integration", e.Integration.Name)] ∧
      svc.Ports = [] := by
  refine ⟨getServiceFor e, ?_, rfl, rfl, rfl, rfl, rfl, rfl⟩
  unfold serviceTrait.Apply
  rw [hrs]
  simp only [hnone]
  rfl

/-- Witness of C10 on the sample environment, whose collection holds one
deployment. -/
theorem service_apply_creates_service_witness :
    sampleEnv.Resources = some [Resource.deployment sampleDeployment] ∧
    Collection.GetServiceForIntegration [Resource.deployment sampleDeployment]
      sampleEnv.Integration = none ∧
    ∃ svc,
      sampleServiceTrait.Apply sampleEnv =
        some { env := { sampleEnv with
                 Resources := some ([Resource.deployment sampleDeployment] ++
                   [Resource.service svc]) }
               err := none } ∧
      svc.Kind = "Service" ∧
      svc.Name = sampleEnv.Integration.Name ∧
      svc.Namespace = sampleEnv.Integration.Namespace ∧
      svc.Labels = [("camel.apache.org/integration", sampleEnv.Integration.Name)] ∧
      svc.Selector = [("camel.apache.org/integration", sampleEnv.Integration.Name)] ∧
      svc.Ports = [] :=
  ⟨rfl, rfl,
    service_apply_creates_service sampleServiceTrait sampleEnv
      [Resource.deployment sampleDeployment] rfl rfl⟩

/-! ## Configure and the Resource Collection -/

theorem service_configure_resources (t : serviceTrait)
    (ResolveIntegrationSources :
      Integration → Option Collection → Except String (List SourceSpec))
    (ExtractAll : RuntimeCatalog → List SourceSpec → IntegrationMetadata)
    (e : Environment) :
    (t.Configure ResolveIntegrationSources ExtractAll e).env.Resources = e.Resources := by
  unfold serviceTrait.Configure
  split
  · rfl
  · split
    · rfl
    · split
      · rfl
      · split
        · rfl
        · simp only
          split <;> rfl

/-- C11: `Configure` of the classpath trait and `Configure` of the service
trait leave the Resource Collection as it was, whatever the trait
configuration, the environment and the answers of the collaborators. -/
theorem configure_keeps_resource_collection (ct : classpathTrait) (st : serviceTrait)
    (ResolveIntegrationSources :
      Integration → Option Collection → Except String (List SourceSpec))
    (ExtractAll : RuntimeCatalog → List SourceSpec → IntegrationMetadata)
    (e : Environment) :
    (ct.Configure e).env.Resources = e.Resources ∧
    (ct.Configure e).env = e ∧
    (st.Configure ResolveIntegrationSources ExtractAll e).env.Resources = e.Resources := by
  refine ⟨?_, ?_, service_configure_resources st ResolveIntegrationSources ExtractAll e⟩
  · unfold classpathTrait.Configure
    split <;> rfl
  · unfold classpathTrait.Configure
    split <;> rfl

/-- C12: when the Integration is neither deploying nor running, service
`Configure` answers not enabled, with no error, for every value of the
`enabled` and `auto` options. -/
theorem service_configure_other_phase (t : serviceTrait)
    (ResolveIntegrationSources :
      Integration → Option Collection → Except String (List SourceSpec))
    (ExtractAll : RuntimeCatalog → List SourceSpec → IntegrationMetadata)
    (e : Environment)
    (hd : e.Integration.Phase ≠ IntegrationPhaseDeploying)
    (hr : e.Integration.Phase ≠ IntegrationPhaseRunning) :
    (t.Configure ResolveIntegrationSources ExtractAll e).enabled = false ∧
    (t.Configure ResolveIntegrationSources ExtractAll e).err = none := by
  have hph : e.IntegrationInPhase [IntegrationPhaseDeploying, IntegrationPhaseRunning]
      = false := by
    unfold Environment.IntegrationInPhase
    simp only [List.any_cons, List.any_nil, Bool.or_false, Bool.or_eq_false_iff,
      beq_eq_false_iff_ne, ne_eq]
    exact ⟨hd, hr⟩
  unfold serviceTrait.Configure
  split
  · exact ⟨rfl, rfl⟩
  · simp only [hph, Bool.not_false, if_true, and_self]

/-- Witness of C12 on an environment whose Integration is building its kit and
whose sources would require a service. -/
theorem service_configure_other_phase_witness :
    sampleBuildingEnv.Integration.Phase ≠ IntegrationPhaseDeploying ∧
    sampleBuildingEnv.Integration.Phase ≠ IntegrationPhaseRunning ∧
    (sampleServiceTrait.Configure sampleResolveSources sampleExtractAll
      sampleBuildingEnv).enabled = false ∧
    (sampleServiceTrait.Configure sampleResolveSources sampleExtractAll
      sampleBuildingEnv).err = none :=
  ⟨by decide, by decide,
    service_configure_other_phase sampleServiceTrait sampleResolveSources sampleExtractAll
      sampleBuildingEnv (by decide) (by decide)⟩

/-! ## Knative service definitions -/

theorem atoi_prefix_ne (t : String) (msg : String) (hmsg : msg.data.head? = some 'c') :
    "strconv.Atoi: parsing \"" ++ t ≠ msg := by
  intro h
  have h2 := congrArg (fun s : String => s.data.head?) h
  simp only [String.data_append] at h2
  rw [hmsg] at h2
  simp at h2

theorem strconvAtoi_error (s e : String) (h : strconvAtoi s = Except.error e) :
    ∃ t, e = "strconv.Atoi: parsing \"" ++ t := by
  unfold strconvAtoi at h
  simp only at h
  split at h <;>
    (split at h
     · exact ⟨_, by rw [String.append_assoc] at h; exact (Except.error.inj h).symm⟩
     · split at h
       · split at h
         · exact absurd h (by simp)
         · exact ⟨_, by rw [String.append_assoc] at h; exact (Except.error.inj h).symm⟩
       · split at h
         · exact absurd h (by simp)
         · exact ⟨_, by rw [String.append_assoc] at h; exact (Except.error.inj h).symm⟩)

theorem buildCamelServiceDefinition_error (name serviceType : String) (u : URL) (e : String)
    (h : BuildCamelServiceDefinition name serviceType u = Except.error e) :
    ∃ t, e = "strconv.Atoi: parsing \"" ++ t := by
  unfold BuildCamelServiceDefinition at h
  simp only at h
  split at h
  · rename_i err hw
    split at hw
    · split at hw
      · rename_i err2 ha
        rw [← Except.error.inj h, ← Except.error.inj hw]
        exact strconvAtoi_error _ _ ha
      · exact absurd hw (by simp)
    · exact absurd hw (by simp)
  · split at h <;> exact absurd h (by simp)

/-- C18: `BuildCamelServiceDefinitionFromServiceStatus` builds from
`status.URL` when that URL is present with a non-empty host; otherwise from
`status.Address.URL` when that one is present with a non-empty host; and it
fails with "cannot determine service hostname" exactly when neither URL has a
non-empty host. -/
theorem build_from_service_status (name serviceType : String) (status : ServiceStatus) :
    (∀ u, status.URL = some u → u.Host ≠ "" →
      BuildCamelServiceDefinitionFromServiceStatus name serviceType status =
        BuildCamelServiceDefinition name serviceType u) ∧
    (∀ address u, (∀ u0, status.URL = some u0 → u0.Host = "") →
      status.Address = some address → address.URL = some u → u.Host ≠ "" →
      BuildCamelServiceDefinitionFromServiceStatus name serviceType status =
        BuildCamelServiceDefinition name serviceType u) ∧
    (BuildCamelServiceDefinitionFromServiceStatus name serviceType status =
        Except.error "cannot determine service hostname" ↔
      ((∀ u, status.URL = some u → u.Host = "") ∧
        (∀ address u, status.Address = some address → address.URL = some u → u.Host = ""))) := by
  have hne : ∀ u, BuildCamelServiceDefinition name serviceType u ≠
      Except.error "cannot determine service hostname" := by
    intro u h
    obtain ⟨t, ht⟩ := buildCamelServiceDefinition_error name serviceType u _ h
    exact atoi_prefix_ne t "cannot determine service hostname" rfl ht.symm
  have part1 : ∀ u, status.URL = some u → u.Host ≠ "" →
      BuildCamelServiceDefinitionFromServiceStatus name serviceType status =
        BuildCamelServiceDefinition name serviceType u := by
    intro u hu hhost
    unfold BuildCamelServiceDefinitionFromServiceStatus
    rw [hu]
    simp [hhost]
  have part2 : ∀ address u, (∀ u0, status.URL = some u0 → u0.Host = "") →
      status.Address = some address → address.URL = some u → u.Host ≠ "" →
      BuildCamelServiceDefinitionFromServiceStatus name serviceType status =
        BuildCamelServiceDefinition name serviceType u := by
    intro address u h0 ha hau hhost
    unfold BuildCamelServiceDefinitionFromServiceStatus
    rw [ha]
    cases hS : status.URL with
    | none => simp [hau, hhost]
    | some u0 => simp [h0 u0 hS, hau, hhost]
  refine ⟨part1, part2, ?_, ?_⟩
  · intro h
    have h1 : ∀ u, status.URL = some u → u.Host = "" := by
      intro u hu
      by_contra hhost
      rw [part1 u hu hhost] at h
      exact hne u h
    refine ⟨h1, ?_⟩
    intro address u ha hau
    by_contra hhost
    rw [part2 address u h1 ha hau hhost] at h
    exact hne u h
  · intro ⟨h1, h2⟩
    unfold BuildCamelServiceDefinitionFromServiceStatus
    have hfallback : (match status.Address with
        | some address =>
          match address.URL with
          | some u =>
            if (u.Host != "") = true then BuildCamelServiceDefinition name serviceType u
            else Except.error "cannot determine service hostname"
          | none => Except.error "cannot determine service hostname"
        | none => Except.error "cannot determine service hostname") =
        Except.error "cannot determine service hostname" := by
      cases ha : status.Address with
      | none => rfl
      | some address =>
        cases hau : address.URL with
        | none => simp [hau]
        | some u => simp [hau, h2 address u ha hau]
    cases hS : status.URL with
    | none => simpa using hfallback
    | some u0 => simpa [h1 u0 hS] using hfallback

theorem afterLastColon_none (l : List Char) (h : ':' ∉ l) : afterLastColon l = none := by
  induction l with
  | nil => rfl
  | cons c rest ih =>
    rw [List.mem_cons, not_or] at h
    unfold afterLastColon
    rw [ih h.2]
    simp only
    rw [if_neg (fun hc => h.1 hc.symm)]

theorem url_port_plain (scheme host path : String) (h : ':' ∉ host.toList) :
    URL.Port { Scheme := scheme, Host := host, Path := path } = "" := by
  unfold URL.Port
  simp only [afterLastColon_none host.toList h]

/-- C19: `BuildCamelServiceDefinitionFromAddressable` builds from the
addressable URL when it has a non-empty host; otherwise, for a non-empty
hostname without a colon that `url.Parse` reads as a host alone (no path), it
returns the definition with that host, protocol `http`, port 80 and service
path `/`; and it fails with "cannot determine addressable hostname" when the
URL has no host and the hostname is empty. -/
theorem build_from_addressable (urlParse : String → Except String URL)
    (name serviceType : String) (addressable : HostAddressable) :
    (∀ u, addressable.URL = some u → u.Host ≠ "" →
      BuildCamelServiceDefinitionFromAddressable urlParse name serviceType addressable =
        BuildCamelServiceDefinition name serviceType u) ∧
    ((∀ u, addressable.URL = some u → u.Host = "") →
      addressable.Hostname ≠ "" → ':' ∉ addressable.Hostname.toList →
      urlParse ("http://" ++ addressable.Hostname) =
        Except.ok { Scheme := "http", Host := addressable.Hostname, Path := "" } →
      BuildCamelServiceDefinitionFromAddressable urlParse name serviceType addressable =
        Except.ok
          { Name := name
            ServiceType := serviceType
            Host := addressable.Hostname
            Protocol := "http"
            Port := 80
            Metadata := [(CamelMetaServicePath, "/")] }) ∧
    ((∀ u, addressable.URL = some u → u.Host = "") → addressable.Hostname = "" →
      BuildCamelServiceDefinitionFromAddressable urlParse name serviceType addressable =
        Except.error "cannot determine addressable hostname") := by
  have hfall : (∀ u, addressable.URL = some u → u.Host = "") →
      BuildCamelServiceDefinitionFromAddressable urlParse name serviceType addressable =
        (if (addressable.Hostname == "") = true then
          Except.error "cannot determine addressable hostname"
        else
          match urlParse ("http://" ++ addressable.Hostname) with
          | Except.error err => Except.error err
          | Except.ok serviceURL => BuildCamelServiceDefinition name serviceType serviceURL) := by
    intro h0
    unfold BuildCamelServiceDefinitionFromAddressable
    cases hU : addressable.URL with
    | none => rfl
    | some u => simp [h0 u hU]
  refine ⟨?_, ?_, ?_⟩
  · intro u hu hhost
    unfold BuildCamelServiceDefinitionFromAddressable
    rw [hu]
    simp [hhost]
  · intro h0 hname hcolon hparse
    rw [hfall h0, hparse]
    simp only [beq_iff_eq, hname, if_false]
    unfold BuildCamelServiceDefinition
    simp only [url_port_plain "http" addressable.Hostname "" hcolon]
    rfl
  · intro h0 hname
    rw [hfall h0]
    simp [hname]

/-- Witness of C18: the fallback to the address URL on the sample status. -/
theorem build_from_service_status_witness :
    BuildCamelServiceDefinitionFromServiceStatus "svc" "endpoint" sampleServiceStatus =
      BuildCamelServiceDefinition "svc" "endpoint"
        { Scheme := "https", Host := "svc.ns:8443", Path := "/in" } ∧
    BuildCamelServiceDefinition "svc" "endpoint"
        { Scheme := "https", Host := "svc.ns:8443", Path := "/in" } =
      Except.ok
        { Name := "svc", ServiceType := "endpoint", Host := "svc.ns:8443", Protocol := "https",
          Port := 8443, Metadata := [("service.path", "/in")] } :=
  ⟨(build_from_service_status "svc" "endpoint" sampleServiceStatus).2.1
      { URL := some { Scheme := "https", Host := "svc.ns:8443", Path := "/in" } }
      { Scheme := "https", Host := "svc.ns:8443", Path := "/in" }
      (by
        intro u0 h
        simp only [sampleServiceStatus, Option.some.injEq] at h
        rw [← h])
      rfl rfl (by decide),
    rfl⟩

/-- Witness of C19: the hostname fallback on the sample addressable. -/
theorem build_from_addressable_witness :
    BuildCamelServiceDefinitionFromAddressable sampleURLParse "svc" "endpoint"
        sampleAddressable =
      Except.ok
        { Name := "svc"
          ServiceType := "endpoint"
          Host := "svc.ns.svc.cluster.local"
          Protocol := "http"
          Port := 80
          Metadata := [(CamelMetaServicePath, "/")] } :=
  (build_from_addressable sampleURLParse "svc" "endpoint" sampleAddressable).2.1
    (by
      intro u h
      simp [sampleAddressable] at h)
    (by decide) (by decide) rfl

theorem url_port_digits (u : URL) : u.Port.toList.all Char.isDigit = true := by
  unfold URL.Port
  split
  · split
    · assumption
    · rfl
  · rfl

theorem strconvAtoi_digits (s : String) (v : Int) (hd : s.toList.all Char.isDigit = true)
    (h : strconvAtoi s = Except.ok v) : v = (digitsValue s.toList : Int) := by
  unfold strconvAtoi at h
  simp only at h
  split at h
  · rename_i digits hs
    rw [hs] at hd
    simp [Char.isDigit] at hd
  · rename_i digits hs
    rw [hs] at hd
    simp [Char.isDigit] at hd
  · split at h
    · exact absurd h (by simp)
    · split at h
      · rename_i hneg
        exact absurd hneg (by simp)
      · split at h
        · exact (Except.ok.inj h).symm
        · exact absurd h (by simp)

/-- C20: a successful `BuildCamelServiceDefinition` returns a definition whose
protocol is the URL scheme, whose port is the decimal value of the explicit
port of the URL when it has one and otherwise 80 for `http`, 443 for `https`
and -1 for any other scheme, and whose metadata holds the service-path key
alone, mapped to the URL path, or to `/` when the path is empty. -/
theorem build_definition_fields (name serviceType : String) (u : URL)
    (d : CamelServiceDefinition)
    (h : BuildCamelServiceDefinition name serviceType u = Except.ok d) :
    d.Protocol = u.Scheme ∧
    (u.Port ≠ "" → d.Port = (digitsValue u.Port.toList : Int)) ∧
    (u.Port = "" →
      d.Port = if u.Scheme = "http" then 80 else if u.Scheme = "https" then 443 else -1) ∧
    d.Metadata = [(CamelMetaServicePath, if u.Path = "" then "/" else u.Path)] ∧
    d.Name = name ∧ d.ServiceType = serviceType ∧ d.Host = u.Host := by
  unfold BuildCamelServiceDefinition at h
  simp only at h
  by_cases hp : u.Port = ""
  · simp only [hp, bne_self_eq_false, Bool.false_eq_true, if_false] at h
    by_cases hpath : u.Path = ""
    · simp only [hpath, bne_self_eq_false, Bool.false_eq_true, if_false] at h
      rw [← Except.ok.inj h]
      simp [hp, hpath, defaultCamelProtocolPort, CamelProtocolHTTP, CamelProtocolHTTPS]
    · have hb : (u.Path != "") = true := by simpa using hpath
      simp only [hb, if_true] at h
      rw [← Except.ok.inj h]
      simp [hp, hpath, defaultCamelProtocolPort, CamelProtocolHTTP, CamelProtocolHTTPS]
  · have hb : (u.Port != "") = true := by simpa using hp
    simp only [hb, if_true] at h
    cases ha : strconvAtoi u.Port with
    | error err => rw [ha] at h; simp at h
    | ok port =>
      rw [ha] at h
      have hport := strconvAtoi_digits u.Port port (url_port_digits u) ha
      by_cases hpath : u.Path = ""
      · simp only [hpath, bne_self_eq_false, Bool.false_eq_true, if_false] at h
        rw [← Except.ok.inj h]
        simp [hp, hpath, hport]
      · have hb2 : (u.Path != "") = true := by simpa using hpath
        simp only [hb2, if_true] at h
        rw [← Except.ok.inj h]
        simp [hp, hpath, hport]

/-- Witness of C20 on an `https` URL with an explicit port and a path. -/
theorem build_definition_fields_witness :
    BuildCamelServiceDefinition "svc" "endpoint"
        { Scheme := "https", Host := "svc.ns:8443", Path := "/in" } =
      Except.ok
        { Name := "svc", ServiceType := "endpoint", Host := "svc.ns:8443", Protocol := "https",
          Port := 8443, Metadata := [("service.path", "/in")] } ∧
    (8443 : Int) =
      (digitsValue (URL.Port { Scheme := "https", Host := "svc.ns:8443", Path := "/in" }).toList
        : Int) :=
  ⟨rfl,
    (build_definition_fields "svc" "endpoint"
      { Scheme := "https", Host := "svc.ns:8443", Path := "/in" }
      { Name := "svc", ServiceType := "endpoint", Host := "svc.ns:8443", Protocol := "https",
        Port := 8443, Metadata := [("service.path", "/in")] } rfl).2.1 (by decide)⟩

/-! ## The Configuration Resolver -/

theorem traitConfig_get_assign_same (c : TraitConfig) (k : String) (v : FieldValue) :
    (c.assign k v).get k = some v := by
  simp [TraitConfig.get, TraitConfig.assign]

theorem traitConfig_get_assign_other (c : TraitConfig) (k k' : String) (v : FieldValue)
    (h : k' ≠ k) : (c.assign k v).get k' = c.get k' := by
  unfold TraitConfig.get TraitConfig.assign
  have h1 : ((k, v).1 == k') = false := by simpa using fun hk => h hk.symm
  simp only [List.find?_cons, h1]
  have h2 : List.find? (fun kv => kv.1 == k')
      (List.filter (fun kv => kv.1 != k) c.values) =
      List.find? (fun kv => kv.1 == k') c.values := by
    induction c.values with
    | nil => rfl
    | cons x xs ih =>
      by_cases hx : x.1 = k
      · have hx2 : (x.1 == k') = false := by rw [hx]; simpa using fun hk => h hk.symm
        have hx3 : (x.1 != k) = false := by simp [hx]
        rw [List.filter_cons, List.find?_cons]
        simp only [hx3, hx2, Bool.false_eq_true, if_false]
        exact ih
      · have hx3 : (x.1 != k) = true := by simpa using hx
        rw [List.filter_cons, List.find?_cons]
        simp only [hx3, if_true]
        rw [List.find?_cons, ih]
  rw [h2]

theorem decodeFields_other (spec : List (String × String)) (fs : List (String × FieldKind))
    (target cfg : TraitConfig) (h : decodeFields spec fs target = Except.ok cfg) (k : String)
    (hk : k ∉ fs.map Prod.fst) : cfg.get k = target.get k ∧ cfg.fields = target.fields := by
  induction fs generalizing target with
  | nil =>
    unfold decodeFields at h
    rw [← Except.ok.inj h]
    exact ⟨rfl, rfl⟩
  | cons f rest ih =>
    obtain ⟨o, kind⟩ := f
    simp only [List.map_cons, List.mem_cons, not_or] at hk
    unfold decodeFields at h
    cases hl : levelValue spec o with
    | none =>
      rw [hl] at h
      exact ih target h hk.2
    | some value =>
      rw [hl] at h
      simp only at h
      cases hp : parseField kind value with
      | error err => rw [hp] at h; simp at h
      | ok v =>
        rw [hp] at h
        obtain ⟨h1, h2⟩ := ih (target.assign o v) h hk.2
        rw [h1, h2]
        exact ⟨traitConfig_get_assign_other target o k v hk.1, rfl⟩

theorem decodeFields_get (spec : List (String × String)) (fs : List (String × FieldKind))
    (target cfg : TraitConfig) (hn : (fs.map Prod.fst).Nodup)
    (h : decodeFields spec fs target = Except.ok cfg) (k : String) (kind : FieldKind)
    (hk : (k, kind) ∈ fs) :
    cfg.get k =
      match levelValue spec k with
      | some value => parsedValue kind value
      | none => target.get k := by
  induction fs generalizing target with
  | nil => simp at hk
  | cons f rest ih =>
    obtain ⟨o, okind⟩ := f
    simp only [List.map_cons, List.nodup_cons] at hn
    rw [List.mem_cons] at hk
    unfold decodeFields at h
    rcases hk with hk | hk
    · obtain ⟨hko, hkind⟩ := Prod.mk.inj hk
      subst hko
      subst hkind
      cases hl : levelValue spec k with
      | none =>
        rw [hl] at h
        exact (decodeFields_other spec rest target cfg h k hn.1).1
      | some value =>
        rw [hl] at h
        simp only at h
        cases hp : parseField kind value with
        | error err => rw [hp] at h; simp at h
        | ok v =>
          rw [hp] at h
          rw [(decodeFields_other spec rest _ cfg h k hn.1).1, traitConfig_get_assign_same]
          simp [parsedValue, hp]
    · have hne : k ≠ o := by
        intro hko
        apply hn.1
        rw [← hko]
        exact List.mem_map_of_mem Prod.fst hk
      cases hl : levelValue spec o with
      | none =>
        rw [hl] at h
        exact ih target hn.2 h hk
      | some value =>
        rw [hl] at h
        simp only at h
        cases hp : parseField okind value with
        | error err => rw [hp] at h; simp at h
        | ok v =>
          rw [hp] at h
          rw [ih (target.assign o v) hn.2 h hk, traitConfig_get_assign_other target o k v hne]

theorem decodeFields_fields (spec : List (String × String)) (fs : List (String × FieldKind))
    (target cfg : TraitConfig) (h : decodeFields spec fs target = Except.ok cfg) :
    cfg.fields = target.fields := by
  induction fs generalizing target with
  | nil =>
    unfold decodeFields at h
    rw [← Except.ok.inj h]
  | cons f rest ih =>
    obtain ⟨o, kind⟩ := f
    unfold decodeFields at h
    cases hl : levelValue spec o with
    | none => rw [hl] at h; exact ih target h
    | some value =>
      rw [hl] at h
      simp only at h
      cases hp : parseField kind value with
      | error err => rw [hp] at h; simp at h
      | ok v =>
        rw [hp] at h
        exact ih (target.assign o v) h

theorem resolve_get (traitID : String)
    (platformSpec kitSpec integrationSpec : List (String × List (String × String)))
    (target cfg : TraitConfig) (option : String) (kind : FieldKind)
    (hn : (target.fields.map Prod.fst).Nodup)
    (h : resolve traitID platformSpec kitSpec integrationSpec target = Except.ok cfg)
    (hk : (option, kind) ∈ target.fields) :
    cfg.get option =
      match mostSpecificValue traitID platformSpec kitSpec integrationSpec option with
      | some value => parsedValue kind value
      | none => target.get option := by
  unfold resolve at h
  cases h1 : decodeTraitSpec (traitSpecOf platformSpec traitID) target with
  | error err => rw [h1] at h; simp at h
  | ok afterPlatform =>
    rw [h1] at h
    simp only at h
    cases h2 : decodeTraitSpec (traitSpecOf kitSpec traitID) afterPlatform with
    | error err => rw [h2] at h; simp at h
    | ok afterKit =>
      rw [h2] at h
      simp only at h
      have f1 : afterPlatform.fields = target.fields := decodeFields_fields _ _ _ _ h1
      have f2 : afterKit.fields = target.fields := (decodeFields_fields _ _ _ _ h2).trans f1
      unfold decodeTraitSpec at h h1 h2
      rw [f2] at h
      rw [f1] at h2
      have g3 := decodeFields_get _ _ _ _ hn h option kind hk
      have g2 := decodeFields_get _ _ _ _ hn h2 option kind hk
      have g1 := decodeFields_get _ _ _ _ hn h1 option kind hk
      rw [g3]
      unfold mostSpecificValue
      cases levelValue (traitSpecOf integrationSpec traitID) option with
      | some v => rfl
      | none =>
        simp only
        rw [g2]
        cases levelValue (traitSpecOf kitSpec traitID) option with
        | some v => rfl
        | none =>
          simp only
          rw [g1]

/-- C17: the resolved value of an option of a trait is the typed value of the
text given by the most specific level that sets it (Integration over Kit over
Platform), and the zero value when no level sets it; on the configuration of
`TestTraitHierarchyDecode` the `knative-service` trait resolves to enabled =
true, min-scale = 5, max-scale = 20 and autoscaling target = 15. -/
theorem resolve_most_specific_level :
    (∀ (traitID : String)
        (platformSpec kitSpec integrationSpec : List (String × List (String × String)))
        (target cfg : TraitConfig) (option : String) (kind : FieldKind),
      (target.fields.map Prod.fst).Nodup →
      resolve traitID platformSpec kitSpec integrationSpec target = Except.ok cfg →
      (option, kind) ∈ target.fields →
      cfg.get option =
        match mostSpecificValue traitID platformSpec kitSpec integrationSpec option with
        | some value => parsedValue kind value
        | none => target.get option) ∧
    ∃ cfg,
      resolve "knative-service" testPlatformTraits testKitTraits testIntegrationTraits
        newKnativeServiceTrait = Except.ok cfg ∧
      cfg.get "enabled" = some (FieldValue.boolean true) ∧
      cfg.get "min-scale" = some (FieldValue.integer 5) ∧
      cfg.get "max-scale" = some (FieldValue.integer 20) ∧
      cfg.get "autoscaling-target" = some (FieldValue.integer 15) := by
  refine ⟨resolve_get, ?_⟩
  refine ⟨{ fields := newKnativeServiceTrait.fields
            values :=
              [("max-scale", FieldValue.integer 20), ("min-scale", FieldValue.integer 5),
               ("enabled", FieldValue.boolean true),
               ("autoscaling-target", FieldValue.integer 15)] }, rfl, ?_, ?_, ?_, ?_⟩ <;>
    decide

/-- Witness of C17: the `max-scale` option of the test configuration is set by
the platform and by the integration, and resolves to the integration value. -/
theorem resolve_most_specific_level_witness :
    mostSpecificValue "knative-service" testPlatformTraits testKitTraits testIntegrationTraits
      "max-scale" = some "20" ∧
    levelValue (traitSpecOf testPlatformTraits "knative-service") "max-scale" = some "10" ∧
    ∀ cfg,
      resolve "knative-service" testPlatformTraits testKitTraits testIntegrationTraits
        newKnativeServiceTrait = Except.ok cfg →
      cfg.get "max-scale" =
        match mostSpecificValue "knative-service" testPlatformTraits testKitTraits
          testIntegrationTraits "max-scale" with
        | some value => parsedValue FieldKind.integer value
        | none => newKnativeServiceTrait.get "max-scale" :=
  ⟨by decide, by decide, fun cfg h =>
    resolve_most_specific_level.1 "knative-service" testPlatformTraits testKitTraits
      testIntegrationTraits newKnativeServiceTrait cfg "max-scale" FieldKind.integer
      (by decide) h (by decide)⟩

/-! ## The Quarkus builder -/

theorem appendLibraryArtifacts_eq (lib : String) (files : List String)
    (artifacts result : List Artifact)
    (h : appendLibraryArtifacts lib files artifacts = some result) :
    result = artifacts ++ files.filterMap (fun file => (libraryArtifact lib file).join) := by
  induction files generalizing artifacts with
  | nil =>
    unfold appendLibraryArtifacts at h
    simp only [Option.some.injEq] at h
    simp [h]
  | cons file rest ih =>
    unfold appendLibraryArtifacts at h
    cases hl : libraryArtifact lib file with
    | none => rw [hl] at h; simp at h
    | some found =>
      cases found with
      | none =>
        rw [hl] at h
        simp only at h
        rw [ih artifacts h]
        simp [List.filterMap_cons, hl]
      | some artifact =>
        rw [hl] at h
        simp only at h
        rw [ih (artifacts ++ [artifact]) h]
        simp [List.filterMap_cons, hl]

theorem libraryArtifact_paths (lib file : String) (artifact : Artifact)
    (h : libraryArtifact lib file = some (some artifact)) :
    artifact.Location = pathJoin [lib, file] ∧
    artifact.Target = pathJoin ["dependencies", file] := by
  unfold libraryArtifact at h
  simp only at h
  split at h
  · simp at h
  · split at h
    · simp at h
    · split at h
      · simp at h
      · split at h
        · simp at h
        · simp only [Option.some.injEq] at h
          rw [← h]
          exact ⟨rfl, rfl⟩

theorem computeDependencies_ok (walk : String → List WalkEntry) (ctx ctx1 : Context)
    (h : ComputeDependencies walk ctx = some (ctx1, none)) :
    ∃ files,
      filepathWalk collectFile (walk (pathJoin [ctx.Path, "maven", "target", "lib"])) [] =
        some (files, none) ∧
      ctx1 =
        { ctx with
          Artifacts := ctx.Artifacts ++
            files.filterMap (fun file =>
              (libraryArtifact (pathJoin [ctx.Path, "maven", "target", "lib"]) file).join) ++
            [runnerArtifact ctx] } := by
  unfold ComputeDependencies at h
  simp only at h
  cases hw : filepathWalk collectFile (walk (pathJoin [ctx.Path, "maven", "target", "lib"])) []
    with
  | none => rw [hw] at h; simp at h
  | some r =>
    obtain ⟨files, err⟩ := r
    cases err with
    | some e => rw [hw] at h; simp at h
    | none =>
      rw [hw] at h
      simp only at h
      cases ha : appendLibraryArtifacts (pathJoin [ctx.Path, "maven", "target", "lib"]) files
        ctx.Artifacts with
      | none => rw [ha] at h; simp at h
      | some artifacts =>
        rw [ha] at h
        simp only [Option.some.injEq, Prod.mk.injEq, and_true] at h
        refine ⟨files, rfl, ?_⟩
        rw [← h, appendLibraryArtifacts_eq _ _ _ _ ha]

/-- C13: a successful `ComputeDependencies` leaves the produced-artifacts list
as the former list, followed by library artifacts (each with a Target under
`dependencies`), followed by one last artifact, for the packaged application:
its ID is the coordinates of the project, its Target is
`<artifactId>-<version>-runner.jar` and its Location is that name joined to
`<context path>/maven/target`. -/
theorem computeDependencies_runner_last (walk : String → List WalkEntry) (ctx ctx1 : Context)
    (h : ComputeDependencies walk ctx = some (ctx1, none)) :
    ∃ libraries runner,
      ctx1.Artifacts = ctx.Artifacts ++ libraries ++ [runner] ∧
      ctx1.Artifacts.getLast? = some runner ∧
      (∀ artifact, artifact ∈ libraries → ∃ file,
        artifact.Target = pathJoin ["dependencies", file] ∧
        artifact.Location =
          pathJoin [pathJoin [ctx.Path, "maven", "target", "lib"], file]) ∧
      runner.ID =
        ctx.Project.GroupID ++ ":" ++ ctx.Project.ArtifactID ++ ":" ++ ctx.Project.Version ∧
      runner.Target = ctx.Project.ArtifactID ++ "-" ++ ctx.Project.Version ++ "-runner.jar" ∧
      runner.Location =
        pathJoin [pathJoin [ctx.Path, "maven", "target"],
          ctx.Project.ArtifactID ++ "-" ++ ctx.Project.Version ++ "-runner.jar"] := by
  obtain ⟨files, _, hctx⟩ := computeDependencies_ok walk ctx ctx1 h
  refine ⟨files.filterMap (fun file =>
      (libraryArtifact (pathJoin [ctx.Path, "maven", "target", "lib"]) file).join),
    runnerArtifact ctx, ?_, ?_, ?_, rfl, rfl, rfl⟩
  · rw [hctx]
  · rw [hctx]
    simp
  · intro artifact ha
    rw [List.mem_filterMap] at ha
    obtain ⟨file, _, hfile⟩ := ha
    have hl : libraryArtifact (pathJoin [ctx.Path, "maven", "target", "lib"]) file =
        some (some artifact) := by
      cases hx : libraryArtifact (pathJoin [ctx.Path, "maven", "target", "lib"]) file with
      | none => rw [hx] at hfile; simp at hfile
      | some found =>
        rw [hx] at hfile
        have hf : found = some artifact := hfile
        rw [hf]
    obtain ⟨h1, h2⟩ := libraryArtifact_paths _ _ _ hl
    exact ⟨file, h2, h1⟩

/-- Witness of C13 on the sample build context and library directory. -/
theorem computeDependencies_runner_last_witness :
    ComputeDependencies sampleWalk sampleContext =
      some ({ sampleContext with
              Artifacts :=
                [{ ID := "org.apache.camel:camel-core:3.0.0"
                   Location :=
                     "/tmp/build/maven/target/lib/org.apache.camel.camel-core-3.0.0.jar"
                   Target := "dependencies/org.apache.camel.camel-core-3.0.0.jar" },
                 { ID := "org.acme:app:1.0"
                   Location := "/tmp/build/maven/target/app-1.0-runner.jar"
                   Target := "app-1.0-runner.jar" }] }, none) ∧
    ∃ libraries runner,
      [({ ID := "org.apache.camel:camel-core:3.0.0"
          Location := "/tmp/build/maven/target/lib/org.apache.camel.camel-core-3.0.0.jar"
          Target := "dependencies/org.apache.camel.camel-core-3.0.0.jar" } : Artifact),
        { ID := "org.acme:app:1.0"
          Location := "/tmp/build/maven/target/app-1.0-runner.jar"
          Target := "app-1.0-runner.jar" }] =
        sampleContext.Artifacts ++ libraries ++ [runner] ∧
      runner.Target = "app" ++ "-" ++ "1.0" ++ "-runner.jar" :=
  ⟨by decide, by
    obtain ⟨libraries, runner, h1, _, _, _, h5, _⟩ :=
      computeDependencies_runner_last sampleWalk sampleContext _
        (by decide : ComputeDependencies sampleWalk sampleContext =
          some ({ sampleContext with
                  Artifacts :=
                    [{ ID := "org.apache.camel:camel-core:3.0.0"
                       Location :=
                         "/tmp/build/maven/target/lib/org.apache.camel.camel-core-3.0.0.jar"
                       Target := "dependencies/org.apache.camel.camel-core-3.0.0.jar" },
                     { ID := "org.acme:app:1.0"
                       Location := "/tmp/build/maven/target/app-1.0-runner.jar"
                       Target := "app-1.0-runner.jar" }] }, none))
    exact ⟨libraries, runner, h1, h5⟩⟩

theorem buildProject_ctx (tools : BuildTools) (ctx : Context) :
    (BuildProject tools ctx).1 = ctx := by
  unfold BuildProject
  simp only
  split
  · rfl
  · split
    · rfl
    · split <;> rfl

theorem injectDependencies_artifacts (AddDependencies : Project → List Dependency → Project)
    (ctx : Context) :
    (InjectDependencies AddDependencies ctx).1.Artifacts = ctx.Artifacts ∧
    (InjectDependencies AddDependencies ctx).2 = none :=
  ⟨rfl, rfl⟩

theorem sortSteps_defaultSteps (ProjectGenerationPhase ProjectBuildPhase : Int)
    (AddDependencies : Project → List Dependency → Project) (tools : BuildTools)
    (walk : String → List WalkEntry)
    (hgap : ProjectGenerationPhase + 3 ≤ ProjectBuildPhase) :
    sortSteps (DefaultSteps ProjectGenerationPhase ProjectBuildPhase AddDependencies tools walk) =
      DefaultSteps ProjectGenerationPhase ProjectBuildPhase AddDependencies tools walk := by
  have h1 : ProjectBuildPhase ≤ ProjectBuildPhase + 1 := by omega
  simp [sortSteps, DefaultSteps, NewStep, insertStep, hgap, h1]

/-- C15: with the project-build phase at least three above the
project-generation phase, the pipeline runs the Quarkus `DefaultSteps` in the
order project/quarkus-dependencies, build/quarkus-package,
build/compute-dependencies; and when build/quarkus-package fails, the run
stops with that error after these two steps, build/compute-dependencies is not
executed and the produced-artifacts list is the one the run started from. -/
theorem quarkus_pipeline_order_and_abort (ProjectGenerationPhase ProjectBuildPhase : Int)
    (AddDependencies : Project → List Dependency → Project) (tools : BuildTools)
    (walk : String → List WalkEntry) (ctx : Context)
    (hgap : ProjectGenerationPhase + 3 ≤ ProjectBuildPhase) :
    (sortSteps (DefaultSteps ProjectGenerationPhase ProjectBuildPhase AddDependencies tools
        walk)).map Step.ID =
      ["project/quarkus-dependencies", "build/quarkus-package", "build/compute-dependencies"] ∧
    (∀ err, (BuildProject tools (InjectDependencies AddDependencies ctx).1).2 = some err →
      ∃ r,
        runPipeline (DefaultSteps ProjectGenerationPhase ProjectBuildPhase AddDependencies tools
          walk) ctx = some r ∧
        r.err = some err ∧
        r.executed = ["project/quarkus-dependencies", "build/quarkus-package"] ∧
        "build/compute-dependencies" ∉ r.executed ∧
        r.ctx.Artifacts = ctx.Artifacts) := by
  refine ⟨?_, ?_⟩
  · rw [sortSteps_defaultSteps _ _ _ _ _ hgap]
    rfl
  · intro err herr
    have hb : BuildProject tools (InjectDependencies AddDependencies ctx).1 =
        ((InjectDependencies AddDependencies ctx).1, some err) := by
      apply Prod.ext
      · exact buildProject_ctx tools _
      · exact herr
    refine ⟨{ ctx := (InjectDependencies AddDependencies ctx).1
              executed := ["project/quarkus-dependencies", "build/quarkus-package"]
              err := some err }, ?_, rfl, rfl, ?_, rfl⟩
    swap
    · show "build/compute-dependencies" ∉
        ["project/quarkus-dependencies", "build/quarkus-package"]
      decide
    unfold runPipeline
    rw [sortSteps_defaultSteps _ _ _ _ _ hgap]
    unfold DefaultSteps NewStep
    simp only [runSteps]
    have hi : InjectDependencies AddDependencies ctx =
        ((InjectDependencies AddDependencies ctx).1, none) := rfl
    rw [hi]
    simp only [hb]
    rfl

/-- Witness of C15 with the phases 10 and 20 and a Maven run that fails. -/
theorem quarkus_pipeline_order_and_abort_witness :
    (10 : Int) + 3 ≤ 20 ∧
    (sortSteps (DefaultSteps 10 20 sampleAddDependencies sampleFailingBuildTools
        sampleWalk)).map Step.ID =
      ["project/quarkus-dependencies", "build/quarkus-package", "build/compute-dependencies"] ∧
    (BuildProject sampleFailingBuildTools
        (InjectDependencies sampleAddDependencies sampleContext).1).2 =
      some "failure while building Quarkus project: exit status 1" ∧
    ∃ r,
      runPipeline (DefaultSteps 10 20 sampleAddDependencies sampleFailingBuildTools sampleWalk)
        sampleContext = some r ∧
      r.err = some "failure while building Quarkus project: exit status 1" ∧
      r.executed = ["project/quarkus-dependencies", "build/quarkus-package"] ∧
      "build/compute-dependencies" ∉ r.executed ∧
      r.ctx.Artifacts = sampleContext.Artifacts :=
  ⟨by decide,
    (quarkus_pipeline_order_and_abort 10 20 sampleAddDependencies sampleFailingBuildTools
      sampleWalk sampleContext (by decide)).1,
    by decide,
    (quarkus_pipeline_order_and_abort 10 20 sampleAddDependencies sampleFailingBuildTools
      sampleWalk sampleContext (by decide)).2 _ (by decide)⟩

/-- C16, evaluation at the failing input: when the library directory is
missing, the walk function dereferences the `nil` file info and
`ComputeDependencies` does not return; when the walk reports an error next to
a file info, the walk function drops the error and `ComputeDependencies`
returns no error and appends the artifact of the application. -/
theorem computeDependencies_walk_error :
    sampleMissingWalk "/tmp/build/maven/target/lib" =
      [{ path := "/tmp/build/maven/target/lib", info := none
         err := some "lstat /tmp/build/maven/target/lib: no such file or directory" }] ∧
    ComputeDependencies sampleMissingWalk sampleContext = none ∧
    ComputeDependencies sampleUnreadableWalk sampleContext =
      some ({ sampleContext with
              Artifacts :=
                [{ ID := "org.acme:app:1.0"
                   Location := "/tmp/build/maven/target/app-1.0-runner.jar"
                   Target := "app-1.0-runner.jar" }] }, none) := by
  decide

/-! ## The coordinate pattern -/

theorem plusRun_none (cls : Char → Bool) (k : MatchState → Option MatchState)
    (caps : List Int) (input : List Char) (pos : Nat)
    (h : ∀ pre post, input = pre ++ post → pre ≠ [] → (∀ c ∈ pre, cls c = true) →
      k { rest := post, pos := pos + pre.length, caps := caps } = none) :
    plusRun cls k caps input pos = none := by
  induction input generalizing pos with
  | nil => rfl
  | cons c rest ih =>
    unfold plusRun
    by_cases hc : cls c = true
    · rw [if_pos hc]
      have h1 : plusRun cls k caps rest (pos + 1) = none := by
        apply ih
        intro pre post hsplit hne hall
        have := h (c :: pre) post (by rw [hsplit]; rfl) (by simp) (by
          intro x hx
          rcases List.mem_cons.1 hx with hx | hx
          · rw [hx]; exact hc
          · exact hall x hx)
        have e : pos + 1 + pre.length = pos + (c :: pre).length := by
          simp only [List.length_cons]
          omega
        rw [e]
        exact this
      rw [h1]
      exact h [c] rest rfl (by simp) (by simpa using hc)
    · rw [if_neg hc]

theorem plusRun_some (cls : Char → Bool) (k : MatchState → Option MatchState)
    (caps : List Int) (pre post : List Char) (pos : Nat) (r : MatchState)
    (hne : pre ≠ []) (hcls : ∀ c ∈ pre, cls c = true)
    (hk : k { rest := post, pos := pos + pre.length, caps := caps } = some r)
    (hlonger : ∀ ext post1, ext ≠ [] → post = ext ++ post1 → (∀ c ∈ ext, cls c = true) →
      k { rest := post1, pos := pos + pre.length + ext.length, caps := caps } = none) :
    plusRun cls k caps (pre ++ post) pos = some r := by
  induction pre generalizing pos with
  | nil => exact absurd rfl hne
  | cons c rest ih =>
    have hc : cls c = true := hcls c (List.mem_cons_self c rest)
    rw [List.cons_append]
    unfold plusRun
    rw [if_pos hc]
    cases rest with
    | nil =>
      have h1 : plusRun cls k caps ([] ++ post) (pos + 1) = none := by
        apply plusRun_none
        intro ext post1 hsplit hext hall
        have := hlonger ext post1 hext (by simpa using hsplit) hall
        simpa using this
      rw [h1]
      simpa using hk
    | cons c2 rest2 =>
      have h1 : plusRun cls k caps ((c2 :: rest2) ++ post) (pos + 1) = some r := by
        apply ih (pos + 1) (by simp)
        · intro x hx
          exact hcls x (List.mem_cons_of_mem c hx)
        · have e : pos + 1 + (c2 :: rest2).length = pos + (c :: c2 :: rest2).length := by
            simp only [List.length_cons]
            omega
          rw [e]
          exact hk
        · intro ext post1 hext hsplit hall
          have e : pos + 1 + (c2 :: rest2).length = pos + (c :: c2 :: rest2).length := by
            simp only [List.length_cons]
            omega
          rw [e]
          exact hlonger ext post1 hext hsplit hall
      rw [h1]

theorem split_before_stop (cls : Char → Bool) (x : Char) (hx : cls x = false)
    (pre post g rest : List Char) (h : pre ++ post = g ++ x :: rest)
    (hall : ∀ c ∈ pre, cls c = true) : ∃ g1, g = pre ++ g1 ∧ post = g1 ++ x :: rest := by
  induction pre generalizing g with
  | nil => exact ⟨g, rfl, by simpa using h⟩
  | cons c pre1 ih =>
    cases g with
    | nil =>
      simp only [List.cons_append, List.nil_append, List.cons.injEq] at h
      have := hall c (List.mem_cons_self c pre1)
      rw [h.1, hx] at this
      exact absurd this (by simp)
    | cons d g1 =>
      simp only [List.cons_append, List.cons.injEq] at h
      obtain ⟨g2, hg, hpost⟩ := ih g1 h.2 (fun y hy => hall y (List.mem_cons_of_mem c hy))
      exact ⟨g2, by rw [h.1, hg]; rfl, hpost⟩

theorem versionGroup_run (v : List Char) (pos : Nat) (caps : List Int) (hv : v ≠ [])
    (hcls : ∀ c ∈ v, (wordChar c || c == '.') = true) :
    versionGroup.run (fun s => jarSuffix.run (fun s1 => some s1) s)
        { rest := v ++ ['.', 'j', 'a', 'r'], pos := pos, caps := caps } =
      some { rest := []
             pos := pos + v.length + 1 + 1 + 1 + 1
             caps := (caps.set 4 (pos : Int)).set 5 ((pos + v.length : Nat) : Int) } := by
  unfold versionGroup
  simp only [Regex.run]
  apply plusRun_some _ _ _ v ['.', 'j', 'a', 'r'] pos _ hv hcls
  · simp
  · intro ext post1 hext hsplit _
    have hlen := congrArg List.length hsplit
    simp only [List.length_cons, List.length_nil, List.length_append] at hlen
    have hpost : post1 = (['.', 'j', 'a', 'r'] : List Char).drop ext.length := by
      rw [hsplit, List.drop_left]
    match ext, hext with
    | [_], _ => rw [hpost]; simp
    | [_, _], _ => rw [hpost]; simp
    | [_, _, _], _ => rw [hpost]; simp
    | [_, _, _, _], _ => rw [hpost]; simp
    | _ :: _ :: _ :: _ :: _ :: _, _ => simp at hlen; omega

theorem rex_run_eq (k : MatchState → Option MatchState) (s : MatchState) :
    rex.run k s =
      plusRun (fun c => wordChar c || c == '-')
        (fun s1 =>
          (Regex.char '-').run
            (fun s2 => versionGroup.run (fun s3 => jarSuffix.run k s3) s2)
            { rest := s1.rest
              pos := s1.pos
              caps := (s1.caps.set (2 * 1) (s.pos : Int)).set (2 * 1 + 1) (s1.pos : Int) })
        s.caps s.rest s.pos :=
  rfl

theorem char_run_same (c : Char) (k : MatchState → Option MatchState) (xs : List Char)
    (pos : Nat) (caps : List Int) :
    (Regex.char c).run k { rest := c :: xs, pos := pos, caps := caps } =
      k { rest := xs, pos := pos + 1, caps := caps } := by
  simp [Regex.run]

theorem char_run_other (c : Char) (k : MatchState → Option MatchState) (post : List Char)
    (pos : Nat) (caps : List Int) (h : post.head? ≠ some c) :
    (Regex.char c).run k { rest := post, pos := pos, caps := caps } = none := by
  cases post with
  | nil => simp [Regex.run]
  | cons x xs =>
    have hx : x ≠ c := by simpa using h
    simp [Regex.run, hx]

theorem rex_run_none (k : MatchState → Option MatchState) (g rest : List Char) (pos : Nat)
    (caps : List Int) (hg : '-' ∉ g) :
    rex.run k { rest := g ++ '.' :: rest, pos := pos, caps := caps } = none := by
  rw [rex_run_eq]
  apply plusRun_none
  intro pre post hsplit _ hall
  obtain ⟨g1, hg1, hpost⟩ :=
    split_before_stop (fun c => wordChar c || c == '-') '.' (by decide) pre post g rest
      hsplit.symm hall
  apply char_run_other
  rw [hpost]
  cases g1 with
  | nil => simp
  | cons d g2 =>
    have hd : d ∈ g := by rw [hg1]; simp
    have hne : d ≠ '-' := fun h => hg (h ▸ hd)
    simpa using hne

theorem versionChar_ne_dash (c : Char) (h : (wordChar c || c == '.') = true) : c ≠ '-' := by
  intro hc
  rw [hc] at h
  revert h
  decide

theorem rex_run_coordinates (a v : List Char) (pos : Nat) (caps : List Int)
    (ha : a ≠ []) (hacls : ∀ c ∈ a, (wordChar c || c == '-') = true)
    (hv : v ≠ []) (hvcls : ∀ c ∈ v, (wordChar c || c == '.') = true) :
    rex.run (fun s => some s)
        { rest := a ++ '-' :: (v ++ ['.', 'j', 'a', 'r']), pos := pos, caps := caps } =
      some { rest := []
             pos := pos + a.length + 1 + v.length + 1 + 1 + 1 + 1
             caps := (((caps.set 2 (pos : Int)).set 3 ((pos + a.length : Nat) : Int)).set 4
               ((pos + a.length + 1 : Nat) : Int)).set 5
                 ((pos + a.length + 1 + v.length : Nat) : Int) } := by
  rw [rex_run_eq]
  apply plusRun_some _ _ _ a ('-' :: (v ++ ['.', 'j', 'a', 'r'])) pos _ ha hacls
  · simp only
    rw [char_run_same, versionGroup_run v _ _ hv hvcls]
  · intro ext post1 hext hsplit _
    simp only
    apply char_run_other
    cases ext with
    | nil => exact absurd rfl hext
    | cons e ext1 =>
      simp only [List.cons_append, List.cons.injEq] at hsplit
      cases post1 with
      | nil => simp
      | cons d post2 =>
        have hd : d ∈ v ++ ['.', 'j', 'a', 'r'] := by rw [hsplit.2]; simp
        rw [List.mem_append] at hd
        have hne : d ≠ '-' := by
          rcases hd with hd | hd
          · exact versionChar_ne_dash d (hvcls d hd)
          · intro h
            rw [h] at hd
            revert hd
            decide
        simpa using hne

theorem findAt_coordinates (g a v : List Char) (pos : Nat) (hg : '-' ∉ g)
    (ha : a ≠ []) (hacls : ∀ c ∈ a, (wordChar c || c == '-') = true)
    (hv : v ≠ []) (hvcls : ∀ c ∈ v, (wordChar c || c == '.') = true) :
    findAt rex 2 (g ++ '.' :: (a ++ '-' :: (v ++ ['.', 'j', 'a', 'r']))) pos =
      some [((pos + g.length + 1 : Nat) : Int),
        ((pos + g.length + 1 + a.length + 1 + v.length + 1 + 1 + 1 + 1 : Nat) : Int),
        ((pos + g.length + 1 : Nat) : Int),
        ((pos + g.length + 1 + a.length : Nat) : Int),
        ((pos + g.length + 1 + a.length + 1 : Nat) : Int),
        ((pos + g.length + 1 + a.length + 1 + v.length : Nat) : Int)] := by
  induction g generalizing pos with
  | nil =>
    rw [List.nil_append]
    unfold findAt
    have hnone := rex_run_none (fun s => some s) [] (a ++ '-' :: (v ++ ['.', 'j', 'a', 'r']))
      pos (List.replicate (2 * (2 + 1)) (-1)) (by simp)
    rw [List.nil_append] at hnone
    rw [hnone]
    simp only
    cases a with
    | nil => exact absurd rfl ha
    | cons c a1 =>
      rw [List.cons_append]
      unfold findAt
      rw [← List.cons_append, rex_run_coordinates (c :: a1) v (pos + 1) _ ha hacls hv hvcls]
      simp [List.replicate, List.set]
  | cons c g1 ih =>
    rw [List.cons_append]
    unfold findAt
    rw [← List.cons_append, rex_run_none _ (c :: g1) _ _ _ hg]
    simp only
    rw [ih (pos + 1) (fun h => hg (List.mem_cons_of_mem c h))]
    have e : pos + 1 + g1.length = pos + (c :: g1).length := by
      simp only [List.length_cons]
      omega
    rw [e]

theorem splitChars_plain (delimiter : Char) (current l : List Char) (h : delimiter ∉ l) :
    splitChars delimiter current l = [String.mk (current.reverse ++ l)] := by
  induction l generalizing current with
  | nil => simp [splitChars]
  | cons c rest ih =>
    rw [List.mem_cons, not_or] at h
    unfold splitChars
    rw [if_neg (fun hc => h.1 hc.symm), ih (c :: current) h.2]
    simp

theorem pathJoin_dependencies (name : List Char) (hs : '/' ∉ name)
    (hlen : 3 ≤ name.length) :
    pathJoin ["dependencies", String.mk name] = "dependencies/" ++ String.mk name := by
  have hne : ∀ short : String, short.length < 3 → String.mk name ≠ short := by
    intro short hshort h
    rw [← h] at hshort
    simp only [String.length] at hshort
    omega
  have hne1 : String.mk name ≠ "" := hne "" (by decide)
  have hne2 : String.mk name ≠ "." := hne "." (by decide)
  have hne3 : String.mk name ≠ ".." := hne ".." (by decide)
  have hsplit : splitChars '/' []
      ('d' :: 'e' :: 'p' :: 'e' :: 'n' :: 'd' :: 'e' :: 'n' :: 'c' :: 'i' :: 'e' :: 's' :: '/' ::
        name) = ["dependencies", String.mk name] := by
    simp [splitChars, splitChars_plain '/' [] name hs]
  have hclean : cleanElements false ["dependencies", String.mk name] [] =
      [String.mk name, "dependencies"] := by
    have h1 : ¬("dependencies" = "" ∨ "dependencies" = ".") := by decide
    have h2 : ¬("dependencies" = "..") := by decide
    have h3 : ¬(String.mk name = "" ∨ String.mk name = ".") := by
      intro h
      rcases h with h | h
      · exact hne1 h
      · exact hne2 h
    unfold cleanElements
    rw [if_neg h1, if_neg h2]
    unfold cleanElements
    rw [if_neg h3, if_neg hne3]
    rfl
  have hjoin : "/".intercalate ["dependencies", String.mk name] =
      String.mk ('d' :: 'e' :: 'p' :: 'e' :: 'n' :: 'd' :: 'e' :: 'n' :: 'c' :: 'i' :: 'e' :: 's' ::
        '/' :: name) := by
    simp [String.intercalate, String.intercalate.go, String.ext_iff]
  have hd : ("dependencies" == "") = false := by decide
  have hfalse : decide ('d' = '/') = false := by decide
  unfold pathJoin
  simp only [List.dropWhile, hd]
  rw [hjoin]
  unfold pathClean
  simp only [String.toList, hfalse, hsplit, hclean]
  simp [String.intercalate, String.intercalate.go, String.ext_iff]

theorem sliceString_mk (l : List Char) (lo hi : Nat) (h1 : lo ≤ hi) (h2 : hi ≤ l.length) :
    sliceString (String.mk l) (lo : Int) (hi : Int) =
      some (String.mk ((l.drop lo).take (hi - lo))) := by
  unfold sliceString
  have hc : (0 : Int) ≤ (lo : Int) ∧ (lo : Int) ≤ (hi : Int) ∧
      (hi : Int) ≤ ((String.mk l).length : Int) := by
    simp only [String.length]
    omega
  rw [if_pos hc]
  simp [String.toList]

theorem libraryArtifact_chars (lib : String) (g a v : List Char) (hg : '-' ∉ g)
    (ha : a ≠ []) (hacls : ∀ c ∈ a, (wordChar c || c == '-') = true)
    (hv : v ≠ []) (hvcls : ∀ c ∈ v, (wordChar c || c == '.') = true) :
    libraryArtifact lib (String.mk (g ++ '.' :: (a ++ '-' :: (v ++ ['.', 'j', 'a', 'r'])))) =
      some (some
        { ID := String.mk g ++ ":" ++ String.mk a ++ ":" ++ String.mk v
          Location :=
            pathJoin [lib, String.mk (g ++ '.' :: (a ++ '-' :: (v ++ ['.', 'j', 'a', 'r'])))]
          Target :=
            pathJoin ["dependencies",
              String.mk (g ++ '.' :: (a ++ '-' :: (v ++ ['.', 'j', 'a', 'r'])))] }) := by
  have hfind : FindStringSubmatchIndex rex 2
      (String.mk (g ++ '.' :: (a ++ '-' :: (v ++ ['.', 'j', 'a', 'r'])))) =
      [((g.length + 1 : Nat) : Int),
        ((g.length + 1 + a.length + 1 + v.length + 1 + 1 + 1 + 1 : Nat) : Int),
        ((g.length + 1 : Nat) : Int),
        ((g.length + 1 + a.length : Nat) : Int),
        ((g.length + 1 + a.length + 1 : Nat) : Int),
        ((g.length + 1 + a.length + 1 + v.length : Nat) : Int)] := by
    unfold FindStringSubmatchIndex
    simp only [String.toList]
    rw [findAt_coordinates g a v 0 hg ha hacls hv hvcls]
    simp only [Nat.zero_add]
  have e1 : ((g.length + 1 : Nat) : Int) - 1 = ((g.length : Nat) : Int) := by
    push_cast
    omega
  have s1 : sliceString (String.mk (g ++ '.' :: (a ++ '-' :: (v ++ ['.', 'j', 'a', 'r']))))
      0 ((g.length : Nat) : Int) = some (String.mk g) := by
    have := sliceString_mk (g ++ '.' :: (a ++ '-' :: (v ++ ['.', 'j', 'a', 'r']))) 0 g.length
      (by omega) (by simp)
    simpa using this
  have s2 : sliceString (String.mk (g ++ '.' :: (a ++ '-' :: (v ++ ['.', 'j', 'a', 'r']))))
      ((g.length + 1 : Nat) : Int) ((g.length + 1 + a.length : Nat) : Int) =
      some (String.mk a) := by
    have := sliceString_mk (g ++ '.' :: (a ++ '-' :: (v ++ ['.', 'j', 'a', 'r'])))
      (g.length + 1) (g.length + 1 + a.length) (by omega)
      (by simp only [List.length_append, List.length_cons, List.length_nil]; omega)
    rw [this]
    have hd : List.drop (g.length + 1) (g ++ '.' :: (a ++ '-' :: (v ++ ['.', 'j', 'a', 'r']))) =
        a ++ '-' :: (v ++ ['.', 'j', 'a', 'r']) := by
      rw [show g ++ '.' :: (a ++ '-' :: (v ++ ['.', 'j', 'a', 'r'])) =
        (g ++ ['.']) ++ (a ++ '-' :: (v ++ ['.', 'j', 'a', 'r'])) by simp]
      exact List.drop_left' (by simp)
    rw [hd, show g.length + 1 + a.length - (g.length + 1) = a.length by omega, List.take_left]
  have s3 : sliceString (String.mk (g ++ '.' :: (a ++ '-' :: (v ++ ['.', 'j', 'a', 'r']))))
      ((g.length + 1 + a.length + 1 : Nat) : Int)
      ((g.length + 1 + a.length + 1 + v.length : Nat) : Int) = some (String.mk v) := by
    have := sliceString_mk (g ++ '.' :: (a ++ '-' :: (v ++ ['.', 'j', 'a', 'r'])))
      (g.length + 1 + a.length + 1) (g.length + 1 + a.length + 1 + v.length) (by omega)
      (by simp only [List.length_append, List.length_cons, List.length_nil]; omega)
    rw [this]
    have hd : List.drop (g.length + 1 + a.length + 1)
        (g ++ '.' :: (a ++ '-' :: (v ++ ['.', 'j', 'a', 'r']))) = v ++ ['.', 'j', 'a', 'r'] := by
      rw [show g ++ '.' :: (a ++ '-' :: (v ++ ['.', 'j', 'a', 'r'])) =
        (g ++ ['.'] ++ a ++ ['-']) ++ (v ++ ['.', 'j', 'a', 'r']) by simp]
      exact List.drop_left' (by simp; omega)
    rw [hd, show g.length + 1 + a.length + 1 + v.length - (g.length + 1 + a.length + 1) =
      v.length by omega, List.take_left]
  unfold libraryArtifact
  simp only [hfind, List.length_cons, List.length_nil, List.getD_cons_succ, List.getD_cons_zero,
    e1, s1, s2, s3]
  rfl

theorem filepathWalk_collectFile_mem (visits : List WalkEntry) (acc files : List String)
    (h : filepathWalk collectFile visits acc = some (files, none)) :
    (∀ name, name ∈ acc → name ∈ files) ∧
    (∀ visit name, visit ∈ visits → visit.info = some { Name := name, IsDir := false } →
      name ∈ files) := by
  induction visits generalizing acc with
  | nil =>
    unfold filepathWalk at h
    simp only [Option.some.injEq, Prod.mk.injEq, and_true] at h
    rw [← h]
    exact ⟨fun _ hn => hn, fun _ _ hv => absurd hv (List.not_mem_nil _)⟩
  | cons first rest ih =>
    unfold filepathWalk at h
    cases hi : first.info with
    | none => simp [collectFile, hi] at h
    | some info =>
      by_cases hdir : info.IsDir = true
      · simp only [collectFile, hi, hdir, Bool.not_true, Bool.false_eq_true, if_false] at h
        obtain ⟨h1, h2⟩ := ih acc h
        refine ⟨h1, ?_⟩
        intro visit name hv hinfo
        rcases List.mem_cons.1 hv with hv | hv
        · rw [hv, hi] at hinfo
          rw [Option.some.inj hinfo] at hdir
          simp at hdir
        · exact h2 visit name hv hinfo
      · have hd : info.IsDir = false := by simpa using hdir
        simp only [collectFile, hi, hd, Bool.not_false, if_true] at h
        obtain ⟨h1, h2⟩ := ih (acc ++ [info.Name]) h
        refine ⟨fun name hn => h1 name (List.mem_append_left _ hn), ?_⟩
        intro visit name hv hinfo
        rcases List.mem_cons.1 hv with hv | hv
        · rw [hv, hi] at hinfo
          rw [Option.some.inj hinfo] at h1
          exact h1 name (by simp)
        · exact h2 visit name hv hinfo

theorem computeDependencies_records (walk : String → List WalkEntry) (ctx ctx1 : Context)
    (visit : WalkEntry) (file : String) (artifact : Artifact)
    (h : ComputeDependencies walk ctx = some (ctx1, none))
    (hvisit : visit ∈ walk (pathJoin [ctx.Path, "maven", "target", "lib"]))
    (hinfo : visit.info = some { Name := file, IsDir := false })
    (hlib : libraryArtifact (pathJoin [ctx.Path, "maven", "target", "lib"]) file =
      some (some artifact)) :
    artifact ∈ ctx1.Artifacts := by
  obtain ⟨files, hwalk, hctx⟩ := computeDependencies_ok walk ctx ctx1 h
  have hfile : file ∈ files :=
    (filepathWalk_collectFile_mem _ _ _ hwalk).2 visit file hvisit hinfo
  rw [hctx]
  simp only [List.mem_append, List.mem_filterMap, List.mem_singleton]
  exact Or.inl (Or.inr ⟨file, hfile, by rw [hlib]; rfl⟩)

theorem filepathWalk_collectFile_total (P : String → Prop) (visits : List WalkEntry)
    (acc : List String)
    (hvisits : ∀ visit ∈ visits, ∃ info, visit.info = some info ∧
      (info.IsDir = true ∨ P info.Name))
    (hacc : ∀ name ∈ acc, P name) :
    ∃ files, filepathWalk collectFile visits acc = some (files, none) ∧
      ∀ name ∈ files, P name := by
  induction visits generalizing acc with
  | nil => exact ⟨acc, rfl, hacc⟩
  | cons first rest ih =>
    obtain ⟨info, hinfo, hcase⟩ := hvisits first (List.mem_cons_self first rest)
    have hrest : ∀ visit ∈ rest, ∃ info, visit.info = some info ∧
        (info.IsDir = true ∨ P info.Name) :=
      fun visit hv => hvisits visit (List.mem_cons_of_mem first hv)
    unfold filepathWalk
    by_cases hdir : info.IsDir = true
    · simp only [collectFile, hinfo, hdir, Bool.not_true, Bool.false_eq_true, if_false]
      exact ih acc hrest hacc
    · have hd : info.IsDir = false := by simpa using hdir
      simp only [collectFile, hinfo, hd, Bool.not_false, if_true]
      apply ih (acc ++ [info.Name]) hrest
      intro name hn
      rcases List.mem_append.1 hn with hn | hn
      · exact hacc name hn
      · rw [List.mem_singleton] at hn
        rw [hn]
        rcases hcase with hc | hc
        · exact absurd hc hdir
        · exact hc

theorem appendLibraryArtifacts_total (lib : String) (files : List String)
    (artifacts : List Artifact) (h : ∀ file ∈ files, libraryArtifact lib file ≠ none) :
    ∃ result, appendLibraryArtifacts lib files artifacts = some result := by
  induction files generalizing artifacts with
  | nil => exact ⟨artifacts, rfl⟩
  | cons file rest ih =>
    have hrest : ∀ f ∈ rest, libraryArtifact lib f ≠ none :=
      fun f hf => h f (List.mem_cons_of_mem file hf)
    unfold appendLibraryArtifacts
    cases hl : libraryArtifact lib file with
    | none => exact absurd hl (h file (List.mem_cons_self file rest))
    | some found =>
      cases found with
      | none => exact ih artifacts hrest
      | some artifact => exact ih (artifacts ++ [artifact]) hrest

theorem computeDependencies_returns (walk : String → List WalkEntry) (ctx : Context)
    (h : ∀ visit ∈ walk (pathJoin [ctx.Path, "maven", "target", "lib"]),
      ∃ info, visit.info = some info ∧
        (info.IsDir = true ∨
          libraryArtifact (pathJoin [ctx.Path, "maven", "target", "lib"]) info.Name ≠ none)) :
    ∃ ctx1, ComputeDependencies walk ctx = some (ctx1, none) := by
  obtain ⟨files, hwalk, hfiles⟩ :=
    filepathWalk_collectFile_total
      (fun name =>
        libraryArtifact (pathJoin [ctx.Path, "maven", "target", "lib"]) name ≠ none)
      _ [] h (fun _ hn => absurd hn (List.not_mem_nil _))
  obtain ⟨result, hresult⟩ :=
    appendLibraryArtifacts_total (pathJoin [ctx.Path, "maven", "target", "lib"]) files
      ctx.Artifacts hfiles
  unfold ComputeDependencies
  simp only [hwalk, hresult]
  exact ⟨_, rfl⟩

theorem coordinate_file_chars (group artifact version : String) :
    group ++ "." ++ artifact ++ "-" ++ version ++ ".jar" =
      String.mk (group.toList ++ '.' ::
        (artifact.toList ++ '-' :: (version.toList ++ ['.', 'j', 'a', 'r']))) := by
  simp [String.ext_iff, String.toList]

theorem alpha_or_dash_class (c : Char) (h : c.isAlpha = true ∨ c = '-') :
    (wordChar c || c == '-') = true := by
  rcases h with h | h
  · simp [wordChar, Char.isAlphanum, h]
  · simp [h]

theorem digit_or_dot_class (c : Char) (h : c.isDigit = true ∨ c = '.') :
    (wordChar c || c == '.') = true := by
  rcases h with h | h
  · simp [wordChar, Char.isAlphanum, h]
  · simp [h]

/-- C14: for a library file named `<group>.<artifact>-<version>.jar`, where
the group holds no hyphen (and no slash), the artifact is made of letters and
hyphens and the version of digits and dots, the loop of `ComputeDependencies`
builds the artifact with ID `<group>:<artifact>:<version>`, Location the file
name joined to the library directory and Target `dependencies/<file name>`,
and a successful `ComputeDependencies` whose walk reports the file holds that
artifact; a file name that the pattern does not match is skipped; and on a
library directory that holds only directories, files of that name and files
that the pattern does not match, `ComputeDependencies` returns without error. -/
theorem computeDependencies_library_artifact (group artifact version : String)
    (hg : '-' ∉ group.toList) (hslash : '/' ∉ group.toList)
    (ha : artifact ≠ "") (hacls : ∀ c ∈ artifact.toList, c.isAlpha = true ∨ c = '-')
    (hv : version ≠ "") (hvcls : ∀ c ∈ version.toList, c.isDigit = true ∨ c = '.') :
    (∀ lib,
      libraryArtifact lib (group ++ "." ++ artifact ++ "-" ++ version ++ ".jar") =
        some (some
          { ID := group ++ ":" ++ artifact ++ ":" ++ version
            Location := pathJoin [lib, group ++ "." ++ artifact ++ "-" ++ version ++ ".jar"]
            Target :=
              "dependencies/" ++ (group ++ "." ++ artifact ++ "-" ++ version ++ ".jar") })) ∧
    (∀ (walk : String → List WalkEntry) (ctx ctx1 : Context) (visit : WalkEntry),
      ComputeDependencies walk ctx = some (ctx1, none) →
      visit ∈ walk (pathJoin [ctx.Path, "maven", "target", "lib"]) →
      visit.info =
        some { Name := group ++ "." ++ artifact ++ "-" ++ version ++ ".jar", IsDir := false } →
      ({ ID := group ++ ":" ++ artifact ++ ":" ++ version
         Location :=
           pathJoin [pathJoin [ctx.Path, "maven", "target", "lib"],
             group ++ "." ++ artifact ++ "-" ++ version ++ ".jar"]
         Target :=
           "dependencies/" ++ (group ++ "." ++ artifact ++ "-" ++ version ++ ".jar") }
        : Artifact) ∈ ctx1.Artifacts) ∧
    (∀ lib other, FindStringSubmatchIndex rex 2 other = [] →
      libraryArtifact lib other = some none) ∧
    (∀ (walk : String → List WalkEntry) (ctx : Context),
      (∀ visit ∈ walk (pathJoin [ctx.Path, "maven", "target", "lib"]),
        ∃ info, visit.info = some info ∧
          (info.IsDir = true ∨
            info.Name = group ++ "." ++ artifact ++ "-" ++ version ++ ".jar" ∨
            FindStringSubmatchIndex rex 2 info.Name = [])) →
      ∃ ctx1, ComputeDependencies walk ctx = some (ctx1, none)) := by
  have hane : artifact.toList ≠ [] := by
    intro h
    apply ha
    rw [String.ext_iff]
    exact h
  have hvne : version.toList ≠ [] := by
    intro h
    apply hv
    rw [String.ext_iff]
    exact h
  have hacls1 : ∀ c ∈ artifact.toList, (wordChar c || c == '-') = true :=
    fun c hc => alpha_or_dash_class c (hacls c hc)
  have hvcls1 : ∀ c ∈ version.toList, (wordChar c || c == '.') = true :=
    fun c hc => digit_or_dot_class c (hvcls c hc)
  have hnoslash : '/' ∉ group.toList ++ '.' ::
      (artifact.toList ++ '-' :: (version.toList ++ ['.', 'j', 'a', 'r'])) := by
    intro h
    simp only [List.mem_append, List.mem_cons, List.mem_singleton, List.not_mem_nil,
      or_false] at h
    rcases h with h | h | h | h | h | h
    · exact hslash h
    · revert h; decide
    · rcases hacls _ h with h1 | h1
      · revert h1; decide
      · revert h1; decide
    · revert h; decide
    · rcases hvcls _ h with h1 | h1
      · revert h1; decide
      · revert h1; decide
    · revert h; decide
  have hmain : ∀ lib,
      libraryArtifact lib (group ++ "." ++ artifact ++ "-" ++ version ++ ".jar") =
        some (some
          { ID := group ++ ":" ++ artifact ++ ":" ++ version
            Location := pathJoin [lib, group ++ "." ++ artifact ++ "-" ++ version ++ ".jar"]
            Target :=
              "dependencies/" ++ (group ++ "." ++ artifact ++ "-" ++ version ++ ".jar") }) := by
    intro lib
    rw [coordinate_file_chars,
      libraryArtifact_chars lib group.toList artifact.toList version.toList hg hane hacls1 hvne
        hvcls1,
      pathJoin_dependencies _ hnoslash
        (by simp only [List.length_append, List.length_cons, List.length_nil]; omega)]
    rfl
  have hskip : ∀ lib other, FindStringSubmatchIndex rex 2 other = [] →
      libraryArtifact lib other = some none := by
    intro lib other hno
    unfold libraryArtifact
    simp [hno]
  refine ⟨hmain, ?_, hskip, ?_⟩
  · intro walk ctx ctx1 visit hok hvisit hinfo
    exact computeDependencies_records walk ctx ctx1 visit _ _ hok hvisit hinfo (hmain _)
  · intro walk ctx hvisits
    apply computeDependencies_returns
    intro visit hv
    obtain ⟨info, hinfo, hcase⟩ := hvisits visit hv
    refine ⟨info, hinfo, ?_⟩
    rcases hcase with hc | hc | hc
    · exact Or.inl hc
    · right
      rw [hc, hmain]
      simp
    · right
      rw [hskip _ _ hc]
      simp

/-- Witness of C14 on `org.apache.camel.camel-core-3.0.0.jar` and on
`readme.txt`, which the pattern does not match. -/
theorem computeDependencies_library_artifact_witness :
    '-' ∉ "org.apache.camel".toList ∧ '/' ∉ "org.apache.camel".toList ∧
    "camel-core" ≠ "" ∧ (∀ c ∈ "camel-core".toList, c.isAlpha = true ∨ c = '-') ∧
    "3.0.0" ≠ "" ∧ (∀ c ∈ "3.0.0".toList, c.isDigit = true ∨ c = '.') ∧
    "org.apache.camel" ++ "." ++ "camel-core" ++ "-" ++ "3.0.0" ++ ".jar" =
      "org.apache.camel.camel-core-3.0.0.jar" ∧
    libraryArtifact "/tmp/build/maven/target/lib"
        ("org.apache.camel" ++ "." ++ "camel-core" ++ "-" ++ "3.0.0" ++ ".jar") =
      some (some
        { ID := "org.apache.camel" ++ ":" ++ "camel-core" ++ ":" ++ "3.0.0"
          Location :=
            pathJoin ["/tmp/build/maven/target/lib",
              "org.apache.camel" ++ "." ++ "camel-core" ++ "-" ++ "3.0.0" ++ ".jar"]
          Target :=
            "dependencies/" ++
              ("org.apache.camel" ++ "." ++ "camel-core" ++ "-" ++ "3.0.0" ++ ".jar") }) ∧
    FindStringSubmatchIndex rex 2 "readme.txt" = [] ∧
    libraryArtifact "/tmp/build/maven/target/lib" "readme.txt" = some none :=
  ⟨by decide, by decide, by decide, by decide, by decide, by decide, by decide,
    (computeDependencies_library_artifact "org.apache.camel" "camel-core" "3.0.0"
      (by decide) (by decide) (by decide) (by decide) (by decide) (by decide)).1
      "/tmp/build/maven/target/lib",
    by decide,
    (computeDependencies_library_artifact "org.apache.camel" "camel-core" "3.0.0"
      (by decide) (by decide) (by decide) (by decide) (by decide) (by decide)).2.2.1
      "/tmp/build/maven/target/lib" "readme.txt" (by decide)⟩

/-- C21, evaluation at the failing input: on the name `camel-core-3.0.0.jar`
the match starts at offset 0, the bound `s[2]-1` of the first slice is -1, the
slice expression is out of range, and `ComputeDependencies` does not return. -/
theorem computeDependencies_slice_out_of_range :
    FindStringSubmatchIndex rex 2 "camel-core-3.0.0.jar" = [0, 20, 0, 10, 11, 16] ∧
    (FindStringSubmatchIndex rex 2 "camel-core-3.0.0.jar").getD 2 0 - 1 = -1 ∧
    sliceString "camel-core-3.0.0.jar" 0 (-1) = none ∧
    libraryArtifact "/tmp/build/maven/target/lib" "camel-core-3.0.0.jar" = none ∧
    ComputeDependencies samplePlainWalk sampleContext = none := by
  decide

/-- C22: when the Resource Collection holds only deployments, a successful
classpath `Apply` leaves the environment classpath as it was just before the
deployments were visited: the visit of the deployments returns the classpath
it was given, and the classpath of the environment after `Apply` is that one. -/
theorem classpath_apply_deployments_keep_classpath (t : classpathTrait) (e : Environment)
    (resources : Collection)
    (hok : (t.Apply e).err = none)
    (hrs : e.Resources = some resources)
    (honly : ∀ r ∈ resources, ∃ d, r = Resource.deployment d) :
    ∃ kit,
      t.resolveKit e = Except.ok kit ∧
      (Collection.VisitDeployment resources (classpathTrait.baseClasspath e.Classpath kit)
        classpathTrait.deploymentVisitor).1 = classpathTrait.baseClasspath e.Classpath kit ∧
      (t.Apply e).env.Classpath = some (classpathTrait.baseClasspath e.Classpath kit) := by
  obtain ⟨kit, hkit⟩ := classpath_resolveKit_of_ok t e hok
  refine ⟨kit, hkit, ?_, ?_⟩
  · rw [visitDeployment_eq]
  · unfold classpathTrait.Apply
    rw [hkit, hrs]
    simp only
    rw [visitKnativeService_classpath_kept]
    · rw [visitDeployment_eq]
    · intro k hk
      have hmem := visitDeployment_knativeService_mem _ _ k hk
      obtain ⟨d, hd⟩ := honly _ hmem
      exact absurd hd (by simp)

/-- Witness of C22 on the sample environment, whose collection holds one
deployment with two mounts. -/
theorem classpath_apply_deployments_keep_classpath_witness :
    (sampleClasspathTrait.Apply sampleEnv).err = none ∧
    sampleEnv.Resources = some [Resource.deployment sampleDeployment] ∧
    (∀ r ∈ [Resource.deployment sampleDeployment], ∃ d, r = Resource.deployment d) ∧
    (sampleClasspathTrait.Apply sampleEnv).env.Classpath.map StrSet.List =
      some ["/etc/camel/resources", "./resources"] ∧
    ∃ kit,
      sampleClasspathTrait.resolveKit sampleEnv = Except.ok kit ∧
      (Collection.VisitDeployment [Resource.deployment sampleDeployment]
        (classpathTrait.baseClasspath sampleEnv.Classpath kit)
        classpathTrait.deploymentVisitor).1 =
          classpathTrait.baseClasspath sampleEnv.Classpath kit ∧
      (sampleClasspathTrait.Apply sampleEnv).env.Classpath =
        some (classpathTrait.baseClasspath sampleEnv.Classpath kit) :=
  have h : ∀ r ∈ [Resource.deployment sampleDeployment], ∃ d, r = Resource.deployment d := by
    intro r hr
    rw [List.mem_singleton] at hr
    exact ⟨sampleDeployment, hr⟩
  ⟨by decide, rfl, h, by decide,
    classpath_apply_deployments_keep_classpath sampleClasspathTrait sampleEnv
      [Resource.deployment sampleDeployment] (by decide) rfl h⟩

/-! ## The platform create action -/

/-- C23: the create action handles a platform exactly when its phase is
Creating.  When every installation succeeds, `Handle` installs the platform
resources, installs the Knative resources exactly when the profile is Knative,
and then submits one update, of the platform with the phase Starting and every
other field as in the input; its result is the result of that update, and the
input object is unchanged.  When an installation fails, `Handle` returns that
error, submits no update and leaves the input object unchanged. -/
theorem create_action_contract (action : createAction) (platform : IntegrationPlatform) :
    (action.CanHandle platform = true ↔ platform.Phase = IntegrationPlatformPhaseCreating) ∧
    (action.installResources platform.Namespace resources = none →
      (platform.Profile = TraitProfileKnative →
        action.installResources platform.Namespace knativeResources = none) →
      (action.Handle platform).calls =
        ClusterCall.install platform.Namespace resources ::
          ((if platform.Profile = TraitProfileKnative then
              [ClusterCall.install platform.Namespace knativeResources]
            else []) ++
            [ClusterCall.update { platform with Phase := IntegrationPlatformPhaseStarting }]) ∧
      (action.Handle platform).err =
        action.update { platform with Phase := IntegrationPlatformPhaseStarting } ∧
      (action.Handle platform).platform = platform ∧
      (ClusterCall.install platform.Namespace knativeResources ∈ (action.Handle platform).calls ↔
        platform.Profile = TraitProfileKnative) ∧
      (∀ target, ClusterCall.update target ∈ (action.Handle platform).calls →
        target = { platform with Phase := IntegrationPlatformPhaseStarting })) ∧
    (∀ err,
      (action.installResources platform.Namespace resources = some err ∨
        (action.installResources platform.Namespace resources = none ∧
          platform.Profile = TraitProfileKnative ∧
          action.installResources platform.Namespace knativeResources = some err)) →
      (action.Handle platform).err = some err ∧
      (∀ target, ClusterCall.update target ∉ (action.Handle platform).calls) ∧
      (action.Handle platform).platform = platform) := by
  have hdiff : resources ≠ knativeResources := by decide
  refine ⟨?_, ?_, ?_⟩
  · unfold createAction.CanHandle
    exact beq_iff_eq
  · intro h1 h2
    unfold createAction.Handle
    rw [h1]
    by_cases hp : platform.Profile = TraitProfileKnative
    · simp only [hp, beq_self_eq_true, if_true]
      rw [h2 hp]
      simp [createAction.submitStarting, IntegrationPlatform.DeepCopy, hp, hdiff]
    · have hb : (platform.Profile == TraitProfileKnative) = false := by simpa using hp
      simp only [hb, Bool.false_eq_true, if_false]
      simp [createAction.submitStarting, IntegrationPlatform.DeepCopy, hp, hdiff.symm]
  · intro err hfail
    unfold createAction.Handle
    rcases hfail with h1 | ⟨h1, hp, h2⟩
    · rw [h1]
      simp
    · rw [h1]
      simp only [hp, beq_self_eq_true, if_true]
      rw [h2]
      simp

/-- Witness of C23: a Knative platform whose installations succeed, an
OpenShift platform, and a Knative platform whose Knative installation fails. -/
theorem create_action_contract_witness :
    sampleCreateAction.CanHandle sampleKnativePlatform = true ∧
    (sampleCreateAction.Handle sampleKnativePlatform).calls =
      [ClusterCall.install "ns" resources, ClusterCall.install "ns" knativeResources,
        ClusterCall.update { sampleKnativePlatform with Phase := "Starting" }] ∧
    (sampleCreateAction.Handle sampleOpenShiftPlatform).calls =
      [ClusterCall.install "ns" resources,
        ClusterCall.update { sampleOpenShiftPlatform with Phase := "Starting" }] ∧
    (sampleFailingCreateAction.Handle sampleKnativePlatform).err = some "forbidden" ∧
    (∀ target, ClusterCall.update target ∉
      (sampleFailingCreateAction.Handle sampleKnativePlatform).calls) ∧
    (sampleFailingCreateAction.Handle sampleKnativePlatform).platform = sampleKnativePlatform :=
  ⟨(create_action_contract sampleCreateAction sampleKnativePlatform).1.2 rfl,
    ((create_action_contract sampleCreateAction sampleKnativePlatform).2.1 rfl
      (fun _ => rfl)).1,
    ((create_action_contract sampleCreateAction sampleOpenShiftPlatform).2.1 rfl
      (fun _ => rfl)).1,
    (create_action_contract sampleFailingCreateAction sampleKnativePlatform).2.2 "forbidden"
      (Or.inr ⟨by decide, by decide, by decide⟩)⟩

end CamelK
